import Mathlib

/-
Verification of the Illinois data-center mapping pipeline
(people-v-hasty-ai).  The Python sources are shallowly embedded:

* pandas string methods (`strip`, `lower`, `replace`, `zfill`, substring
  containment) become functions on `String`/`List Char`;
* numeric series become `List (Option ℚ)` (`none` models NaN / pd.NA, a
  rational models the coerced numeric value; `pd.to_numeric(..., "coerce")`
  is absorbed into this representation);
* fallible pipeline steps become `Except String`-valued functions, and the
  `try/except` orchestration of `make_map.main` becomes `mainModel`;
* `DataFrame` column bookkeeping becomes lists of column labels.

Sources: `src/make_map.py`, `app/streamlit_app.py`, `src/mapping/build_map.py`,
`src/utils/io.py`, `src/config.py`.
-/

/- ===================== Python string primitives ===================== -/

/-- ASCII/unicode whitespace test used by `str.strip` (modelled with Lean's
`Char.isWhitespace`). -/
def isPyWs (c : Char) : Bool := c.isWhitespace

/-- Data-level model of Python `str.strip`: drop whitespace from both ends. -/
def stripData (l : List Char) : List Char :=
  ((l.dropWhile isPyWs).reverse.dropWhile isPyWs).reverse

/-- Model of Python `str.strip` / pandas `.str.strip()`. -/
def pyStrip (s : String) : String := ⟨stripData s.data⟩

/-- ASCII lower-casing of one character (model of `str.lower` per character). -/
def lowerChar (c : Char) : Char :=
  if 'A' ≤ c ∧ c ≤ 'Z' then Char.ofNat (c.toNat + 32) else c

/-- Model of Python `str.lower` / pandas `.str.lower()` (ASCII fragment). -/
def pyLower (s : String) : String := ⟨s.data.map lowerChar⟩

/-- Decidable substring search: does `pat` occur contiguously in the list?
Models Python's `pat in s`. -/
def containsSeq (pat : List Char) : List Char → Bool
  | [] => pat.isEmpty
  | c :: t => pat.isPrefixOf (c :: t) || containsSeq pat t

/-- Model of Python `pat in s` on strings. -/
def pyContains (pat s : String) : Bool := containsSeq pat.data s.data

/-- Model of `_safe_text` (build_map.py lines 9-14): `None`/NaN become the
empty string, any other value its string form.  Cell values are modelled as
`Option String` with `none` for `None`/NaN. -/
def _safe_text (v : Option String) : String := v.getD ""

/- ===================== `_coerce_fips` (make_map.py 119-122) ===================== -/

/-- Model of pandas `.str.replace(".0", "", regex=False)`: remove every
(non-overlapping, left-to-right) occurrence of the two-character pattern
`.0`. -/
def replaceDot0 : List Char → List Char
  | '.' :: '0' :: rest => replaceDot0 rest
  | c :: rest => c :: replaceDot0 rest
  | [] => []

/-- Model of Python `str.zfill`: left-pad with `'0'` to width `w`, keeping a
leading sign character in front of the padding; strings already at least `w`
long are returned unchanged. -/
def pyZfill (w : ℕ) (l : List Char) : List Char :=
  if w ≤ l.length then l
  else
    match l with
    | c :: rest =>
      if c = '+' ∨ c = '-' then c :: (List.replicate (w - l.length) '0' ++ rest)
      else List.replicate (w - l.length) '0' ++ (c :: rest)
    | [] => List.replicate w '0'

/-- Model of `_coerce_fips` (make_map.py lines 119-122, per element of the
series): `astype(str).str.strip()`, then `.str.replace(".0", "", regex=False)`,
then `.str.zfill(5)`. -/
def _coerce_fips (s : String) : String := ⟨pyZfill 5 (replaceDot0 (stripData s.data))⟩

/- ===================== `_make_unique_columns` (make_map.py 125-141) ===================== -/

/-- First phase of `_make_unique_columns` on one label: `None` becomes `""`,
otherwise the label is stripped; a blank or (case-insensitively) `"nan"` name
is replaced by `col_<index>`. -/
def processName (i : ℕ) (c : Option String) : String :=
  let name := match c with
    | none => ""
    | some s => pyStrip s
  if name = "" ∨ pyLower name = "nan" then "col_" ++ Nat.repr i else name

/-- Lookup in the `seen` occurrence-count dictionary (modelled as an
association list; each key occurs at most once along any reachable run). -/
def lookupSeen (seen : List (String × ℕ)) (n : String) : Option ℕ :=
  (seen.find? (fun p => p.1 == n)).map (fun p => p.2)

/-- `seen[name] = k`: update the count stored under a key. -/
def bumpSeen (seen : List (String × ℕ)) (n : String) (k : ℕ) : List (String × ℕ) :=
  seen.map (fun p => if p.1 == n then (p.1, k) else p)

/-- The loop of `_make_unique_columns`: `i` is the positional index, `seen`
the occurrence-count dictionary.  A fresh name is recorded with count 1; a
repeated name gets `__<count>` appended, counts starting at 2. -/
def uniqueGo (i : ℕ) (seen : List (String × ℕ)) : List (Option String) → List String
  | [] => []
  | c :: cs =>
    let name := processName i c
    match lookupSeen seen name with
    | none => name :: uniqueGo (i + 1) ((name, 1) :: seen) cs
    | some k => (name ++ "__" ++ Nat.repr (k + 1)) :: uniqueGo (i + 1) (bumpSeen seen name (k + 1)) cs

/-- Model of `_make_unique_columns` (make_map.py lines 125-141 and
streamlit_app.py lines 32-48); labels are `Option String`, `none` standing
for a `None` entry. -/
def _make_unique_columns (cols : List (Option String)) : List String := uniqueGo 0 [] cols

/-- Numeric value of a decimal digit character. -/
def charVal (c : Char) : ℕ := c.toNat - 48

/-- Value of a most-significant-first decimal digit string; used to read back
`Nat.repr`. -/
def valOf (l : List Char) : ℕ := l.foldl (fun a c => 10 * a + charVal c) 0

/-- A character list with no two consecutive underscores (no occurrence of the
deduplication separator `__`). -/
def NoDU (l : List Char) : Prop := ∀ xs ys : List Char, l ≠ xs ++ '_' :: '_' :: ys

/- ===================== `_minmax` / `_compute_impact_score` (build_map.py 17-45) ===================== -/

/-- Model of `series.dropna()`: the present (non-missing) values of a column. -/
def presentVals (l : List (Option ℚ)) : List ℚ := l.filterMap id

/-- Model of `_minmax` (build_map.py lines 17-25): if the column has no
present value it is returned unchanged; otherwise it is rescaled by
`(x - min) / (max - min)` over the present values, with the all-equal case
returning `s * 0` (zero at present entries, missing kept missing). -/
def _minmax (l : List (Option ℚ)) : List (Option ℚ) :=
  match presentVals l with
  | [] => l
  | h :: t =>
    let mn := t.foldl min h
    let mx := t.foldl max h
    if mx = mn then l.map (fun o => o.map (fun x => x * 0))
    else l.map (fun o => o.map (fun x => (x - mn) / (mx - mn)))

/-- Round-half-to-even to an integer on ℚ, the rounding used by pandas
`round` at an exact tie; exact on this rational model. -/
def rhe (q : ℚ) : ℤ :=
  if q - ⌊q⌋ < 1/2 then ⌊q⌋
  else if 1/2 < q - ⌊q⌋ then ⌊q⌋ + 1
  else if ⌊q⌋ % 2 = 0 then ⌊q⌋ else ⌊q⌋ + 1

/-- Model of `.round(1)`: round to one decimal digit. -/
def round1 (q : ℚ) : ℚ := (rhe (q * 10) : ℚ) / 10

/-- Column synthesis of `_compute_impact_score` (build_map.py lines 35-38): a
wholly absent column is created as entirely missing (`pd.NA`). -/
def synthCol (n : ℕ) (c : Option (List (Option ℚ))) : List (Option ℚ) :=
  c.getD (List.replicate n none)

/-- Scalar multiplication of a series entry; missing propagates. -/
def oScale (c : ℚ) (o : Option ℚ) : Option ℚ := o.map (fun x => c * x)

/-- Addition of two aligned series entries; missing propagates. -/
def oAdd : Option ℚ → Option ℚ → Option ℚ
  | some a, some b => some (a + b)
  | _, _ => none

/-- Model of `_compute_impact_score` (build_map.py lines 28-45) on a table
with `n` rows: synthesize absent input columns as all-missing, minmax-rescale
both, form `0.55 * pov_n + 0.45 * min_n`, multiply by 100 and round to one
decimal. -/
def _compute_impact_score (n : ℕ) (pov minor : Option (List (Option ℚ))) : List (Option ℚ) :=
  let povN := _minmax (synthCol n pov)
  let minN := _minmax (synthCol n minor)
  let score01 := List.zipWith oAdd (povN.map (oScale 0.55)) (minN.map (oScale 0.45))
  score01.map (fun o => o.map (fun v => round1 (v * 100)))

/-- Modelled from the spec: the minimum over the counties with a non-missing
value (used by the spec-side `minmax` formula; the value on an all-missing
column is irrelevant and fixed to 0). -/
def specMinOf (l : List (Option ℚ)) : ℚ :=
  match presentVals l with
  | [] => 0
  | h :: t => t.foldl min h

/-- Modelled from the spec: the maximum over the counties with a non-missing
value. -/
def specMaxOf (l : List (Option ℚ)) : ℚ :=
  match presentVals l with
  | [] => 0
  | h :: t => t.foldl max h

/-- Spec-side statement of `minmax` at one index, following the spec's words:
`minmax(x) = (x - min(x)) / (max(x) - min(x))` over the counties with a
non-missing value, missing entries staying missing. -/
def minmaxSpecAt (l : List (Option ℚ)) (i : ℕ) : Option ℚ :=
  ((l.get? i).getD none).map (fun x => (x - specMinOf l) / (specMaxOf l - specMinOf l))

/-- Spec-side statement of the impact-score formula at one index:
`round(100 * (0.55 * minmax(poverty) + 0.45 * minmax(minority)), 1)`, missing
whenever either term is missing. -/
def specScoreAt (p m : List (Option ℚ)) (i : ℕ) : Option ℚ :=
  match minmaxSpecAt p i, minmaxSpecAt m i with
  | some a, some b => some (round1 (100 * (0.55 * a + 0.45 * b)))
  | _, _ => none

/- ===================== site classification (build_map.py 185-193, 405-433) ===================== -/

/-- The four site buckets of `build_illinois_map`: the three status layers and
the additional-infrastructure ("inventory") context layer. -/
inductive SiteBucket where
  | existing
  | proposed
  | denied
  | inventory
deriving DecidableEq

/-- The value of `df["layer"]` at classification time: build_map.py line 188
has already applied `astype(str).str.strip().str.lower()` (a missing value
becomes the literal string `"nan"`). -/
def normLayer (layerRaw : Option String) : String := pyLower (pyStrip (layerRaw.getD "nan"))

/-- Model of `is_inv` (build_map.py line 410): the identifier contains `INV`
(case-sensitive), or the status text contains `inventory` or `reserve`
case-insensitively. -/
def isInv (siteId : Option String) (layerText : String) : Bool :=
  pyContains "INV" (_safe_text siteId) || pyContains "inventory" (pyLower layerText) ||
    pyContains "reserve" (pyLower layerText)

/-- Model of the classification in the site loop (build_map.py lines 405-433):
the infrastructure test runs first; otherwise status `existing` / `denied` /
anything else selects the bucket. -/
def classifySite (siteId : Option String) (layerRaw : Option String) : SiteBucket :=
  let layerText := normLayer layerRaw
  let layerVal := pyLower (pyStrip layerText)
  if isInv siteId layerText then SiteBucket.inventory
  else if layerVal = "existing" then SiteBucket.existing
  else if layerVal = "denied" then SiteBucket.denied
  else SiteBucket.proposed

/- ===================== choropleth layers and legends (build_map.py 103-164, 222-310) ===================== -/

/-- Model of `_add_geojson_choropleth` (build_map.py lines 103-164) on its
data-dependent behavior: coerce the column to numeric and drop missing
values; with no valid value return an absent result (no layer added, no
legend), otherwise scale the colormap on `(vmin, vmax)` and return it
together with its legend markup. -/
def _add_geojson_choropleth (col : List (Option ℚ)) : Option (ℚ × ℚ) :=
  match presentVals col with
  | [] => none
  | h :: t => some (t.foldl min h, t.foldl max h)

/-- The county metric columns handed to `build_illinois_map` (an absent
optional column is `none`; all present columns have `n` rows). -/
structure CountyCols where
  n : ℕ
  pov : Option (List (Option ℚ))
  minor : Option (List (Option ℚ))
  aqiP90 : Option (List (Option ℚ))
  ozone : Option (List (Option ℚ))
  pm25 : Option (List (Option ℚ))

/-- One conditional layer-name (or legend-title) entry. -/
def optBlock (present : Bool) (nm : String) : List String :=
  if present then [nm] else []

/-- The choropleth blocks of `build_illinois_map` (build_map.py lines
222-310): `_compute_impact_score` synthesizes the poverty and minority
columns onto the frame, so those blocks always run (on a possibly all-missing
column); the three air-quality blocks run only when their column exists; each
block adds its layer and appends its paired legend exactly when
`_add_geojson_choropleth` returns a non-absent result.  Result: (layer names,
legend titles). -/
def buildCountyLayers (c : CountyCols) : List String × List String :=
  let impact := _compute_impact_score c.n c.pov c.minor
  let b1 := (_add_geojson_choropleth impact).isSome
  let b2 := (_add_geojson_choropleth (synthCol c.n c.pov)).isSome
  let b3 := (_add_geojson_choropleth (synthCol c.n c.minor)).isSome
  let b4 := match c.aqiP90 with
    | none => false
    | some col => (_add_geojson_choropleth col).isSome
  let b5 := match c.ozone with
    | none => false
    | some col => (_add_geojson_choropleth col).isSome
  let b6 := match c.pm25 with
    | none => false
    | some col => (_add_geojson_choropleth col).isSome
  (optBlock b1 "Community Impact Score (0–100)" ++
     optBlock b2 "County Poverty Rate (%)" ++
     optBlock b3 "County Minority Population (%)" ++
     optBlock b4 "Air Quality Hotspots (AQI 90th %ile)" ++
     optBlock b5 "Ozone Hotspots (Days per Year)" ++
     optBlock b6 "PM2.5 Hotspots (Days per Year)",
   optBlock b1 "Community Impact Score (higher = more vulnerable)" ++
     optBlock b2 "County Poverty Rate (%)" ++
     optBlock b3 "County Minority Population (%)" ++
     optBlock b4 "90th Percentile AQI (higher = worse air)" ++
     optBlock b5 "Ozone Days (higher = more ozone days)" ++
     optBlock b6 "PM2.5 Days (higher = more PM2.5 days)")

/- ===================== pipeline orchestration (make_map.py 189-328, utils/io.py) ===================== -/

/-- The sites table, reduced to what the pipeline's completion depends on:
whether the mandatory `lat`/`lon` columns exist (build_map.py line 190 raises
a `KeyError` otherwise). -/
structure SitesTable where
  hasLat : Bool
  hasLon : Bool

/-- One row of the air-quality CSV: `State`, `County`, and the numeric
coercion of `Year` (`none` models a non-numeric or missing year after
`pd.to_numeric(..., errors="coerce")`). -/
structure AqiRow where
  state : String
  county : String
  year : Option ℚ
deriving DecidableEq

/-- Model of Python `int(...)` on a float: truncation toward zero. -/
def pyIntTrunc (q : ℚ) : ℤ := if 0 ≤ q then ⌊q⌋ else -⌊-q⌋

/-- The state filter of the AQI block (make_map.py line 231):
`aqi["State"].astype(str).str.strip().str.lower() == "illinois"`. -/
def aqiFilterIllinois (rows : List AqiRow) : List AqiRow :=
  rows.filter (fun r => pyLower (pyStrip r.state) == "illinois")

/-- Model of make_map.py lines 231-234: filter to Illinois, compute
`latest_year = int(max(Year))` — raising when no numeric year exists — and
keep the rows whose `Year` equals that integer. -/
def aqiYearFilter (rows : List AqiRow) : Except String (ℤ × List AqiRow) :=
  let il := aqiFilterIllinois rows
  match il.filterMap (fun r => r.year) with
  | [] => Except.error "cannot convert float NaN to integer"
  | h :: t =>
    let latest := pyIntTrunc (t.foldl max h)
    Except.ok (latest, il.filter (fun r => decide (r.year = some (latest : ℚ))))

/-- Modelled from the spec: the rows of the target state whose numeric `Year`
value equals the maximum numeric year present (the spec's description of the
most-recent-year filter). -/
def specKeptRows (rows : List AqiRow) : List AqiRow :=
  let il := aqiFilterIllinois rows
  match il.filterMap (fun r => r.year) with
  | [] => []
  | h :: t => il.filter (fun r => decide (r.year = some (t.foldl max h)))

/-- The AQI enrichment step of `main`: reading may fail (missing file, missing
column, malformed data — all surfaced as the reader's error), then the
state/year filter runs. -/
def aqiStage (readResult : Except String (List AqiRow)) : Except String (ℤ × List AqiRow) :=
  match readResult with
  | Except.error e => Except.error e
  | Except.ok rows => aqiYearFilter rows

/-- The canonical column names the AQI merge adds (make_map.py lines 236-263). -/
def aqiAddCols : List String :=
  ["County_clean", "AQI_P90", "AQI_Median", "AQI_Max", "Ozone_Days", "PM25_Days", "AQI_Days_Total"]

/-- The LEAD rename map (make_map.py lines 280-285), in insertion order. -/
def leadRenamePairs : List (String × String) :=
  [("Energy Burden (% income)", "Energy_Burden_PctIncome"),
   ("Avg. Annual Energy Cost ($)", "Avg_Annual_Energy_Cost_USD"),
   ("Total Households", "Total_Households"),
   ("Household Income", "Household_Income_USD")]

/-- The canonical column names the LEAD merge can add. -/
def leadTargetCols : List String := leadRenamePairs.map (fun p => p.2)

/-- The LEAD enrichment step (make_map.py lines 272-288): read with 8 skipped
rows (reader may fail), deduplicate the columns, require `Geography ID`, then
keep the renamed columns that are present. -/
def leadStage (readResult : Except String (List (Option String))) : Except String (List String) :=
  match readResult with
  | Except.error e => Except.error e
  | Except.ok rawCols =>
    let cols := _make_unique_columns rawCols
    if "Geography ID" ∈ cols then
      Except.ok (leadRenamePairs.filterMap (fun p => if p.1 ∈ cols then some p.2 else none))
    else Except.error "LEAD CSV missing 'Geography ID' column."

/-- Model of `_find_col` (make_map.py lines 180-186): exact match first, then
a label deduplicated from the base name (`base` or `base__<k>`). -/
def _find_col (cols : List String) (base : String) : Option String :=
  if base ∈ cols then some base
  else cols.find? (fun c => c == base || (base ++ "__").data.isPrefixOf c.data)

/-- Model of `df.dropna(axis=1, how="all")`: keep a header label only when
its column holds at least one present value in the data rows. -/
def dropEmptyCols (header : List String) (data : List (List (Option String))) : List String :=
  (List.range header.length).filterMap (fun j =>
    if data.any (fun row => ((row.get? j).getD none).isSome) then header.get? j else none)

/-- The XLSB enrichment step (make_map.py lines 156-177 and 299-319): fail if
`pyxlsb` is unavailable; read all rows (reader may fail); require at least 6
rows; take row 4 as header, deduplicate, drop all-empty columns; resolve the
three needed columns or fail; on success add the consumption column. -/
def xlsbStage (pyxlsbAvailable : Bool)
    (readResult : Except String (List (List (Option String)))) : Except String (List String) :=
  if pyxlsbAvailable = false then
    Except.error "Missing dependency 'pyxlsb'. Install it with: pip install pyxlsb"
  else
    match readResult with
    | Except.error e => Except.error e
    | Except.ok rows =>
      if rows.length < 6 then Except.error "XLSB County sheet looks empty or unreadable."
      else
        match _find_col (dropEmptyCols (_make_unique_columns ((rows.get? 4).getD []))
            (rows.drop 5)) "state_abbr" with
        | none => Except.error "Energy profiles County sheet missing 'state_abbr'."
        | some _ =>
          match _find_col (dropEmptyCols (_make_unique_columns ((rows.get? 4).getD []))
              (rows.drop 5)) "county_id" with
          | none => Except.error "Energy profiles County sheet missing 'county_id'."
          | some _ =>
            match _find_col (dropEmptyCols (_make_unique_columns ((rows.get? 4).getD []))
                (rows.drop 5)) "consumption (MWh/capita)" with
            | none => Except.error "Energy profiles County sheet missing 'consumption (MWh/capita)'."
            | some _ => Except.ok ["Elec_Consumption_MWh_perCapita"]

/-- The environment one run of `make_map.main` reads: each source is either
present with its content or absent/failing. -/
structure PipelineEnv where
  sitesFile : Option SitesTable
  geoFile : Option (List String)
  statsFile : Option (List String)
  aqiRead : Except String (List AqiRow)
  leadRead : Except String (List (Option String))
  pyxlsbAvailable : Bool
  xlsbRead : Except String (List (List (Option String)))

/-- What a completed run yields for the purposes of the failure-semantics
claims: the county table's columns and the accumulated warnings. -/
structure MainResult where
  columns : List String
  warnings : List String

/-- Model of `_ensure_unique_gdf_columns`: rerun the deduplicator on the
column labels after a merge. -/
def ensureUniqueCols (cols : List String) : List String :=
  _make_unique_columns (cols.map some)

def ilSitesPath : String := "data/processed/il_sites_enhanced.csv"

def ilBoundariesPath : String := "data/boundaries/IL_County_Boundaries.shp"

def ilStatsPath : String := "data/processed/il_county_stats_enhanced.csv"

def aqiPath : String := "data/raw/annual_aqi_by_county_2025.csv"

def leadPath : String := "data/raw/LEADTool_Data Counties.csv"

def energyXlsbPath : String := "data/raw/2016cityandcountyenergyprofiles.xlsb"

/-- Model of `read_csv` (utils/io.py lines 7-11): a missing file raises
`FileNotFoundError(f"Missing file: {path}")`. -/
def readCsvModel {α : Type} (f : Option α) (path : String) : Except String α :=
  match f with
  | none => Except.error ("Missing file: " ++ path)
  | some t => Except.ok t

/-- Model of `read_geographic_data` (utils/io.py lines 14-28): a missing file
raises `FileNotFoundError(f"Geographic file not found at: {file_path}")`. -/
def readGeoModel {α : Type} (f : Option α) (path : String) : Except String α :=
  match f with
  | none => Except.error ("Geographic file not found at: " ++ path)
  | some t => Except.ok t

/-- Model of a bare `pd.read_csv` on a missing file (pandas raises
`FileNotFoundError` naming the path). -/
def pandasReadCsvModel {α : Type} (f : Option α) (path : String) : Except String α :=
  match f with
  | none => Except.error ("[Errno 2] No such file or directory: " ++ path)
  | some t => Except.ok t

def aqiWarn (e : String) : String :=
  "[WARN] AQI not loaded from " ++ aqiPath ++ ". Error: " ++ e

def leadWarn (e : String) : String :=
  "[WARN] LEAD not loaded from " ++ leadPath ++ ". Error: " ++ e

def xlsbWarn (e : String) : String :=
  "[WARN] Energy profiles XLSB not loaded from " ++ energyXlsbPath ++
    ". If you see a pyxlsb error, run: pip install pyxlsb. Error: " ++ e

/-- Model of `make_map.main` (lines 189-328): the three base reads are
unguarded (their exceptions abort the run); the `GEOID` accesses on both base
tables must succeed; each of the three enrichment steps is wrapped in
`try/except`, on failure printing a warning and leaving the county table as
it was; column deduplication reruns after every merge; finally the map build
needs the sites table's `lat`/`lon` columns. -/
def mainModel (env : PipelineEnv) : Except String MainResult :=
  match readCsvModel env.sitesFile ilSitesPath with
  | Except.error e => Except.error e
  | Except.ok sites =>
    match readGeoModel env.geoFile ilBoundariesPath with
    | Except.error e => Except.error e
    | Except.ok geoCols =>
      match pandasReadCsvModel env.statsFile ilStatsPath with
      | Except.error e => Except.error e
      | Except.ok statsCols =>
        if "GEOID" ∈ geoCols ∧ "GEOID" ∈ statsCols then
          let withName := ensureUniqueCols (geoCols ++ statsCols.erase "GEOID") ++ ["NAME_clean"]
          let s1 :=
            match aqiStage env.aqiRead with
            | Except.ok _ => (ensureUniqueCols (withName ++ aqiAddCols), ([] : List String))
            | Except.error e => (withName, [aqiWarn e])
          let s2 :=
            match leadStage env.leadRead with
            | Except.ok addCols => (ensureUniqueCols (s1.1 ++ addCols), s1.2)
            | Except.error e => (s1.1, s1.2 ++ [leadWarn e])
          let s3 :=
            match xlsbStage env.pyxlsbAvailable env.xlsbRead with
            | Except.ok addCols => (ensureUniqueCols (s2.1 ++ addCols), s2.2)
            | Except.error e => (s2.1, s2.2 ++ [xlsbWarn e])
          if sites.hasLat && sites.hasLon then Except.ok ⟨s3.1, s3.2⟩
          else Except.error "KeyError: lat, lon"
        else Except.error "KeyError: GEOID"

/-- Cleanliness of base column labels: pairwise distinct, already stripped,
non-blank, not the literal missing-value token (under these conditions the
deduplicator leaves a label list unchanged). -/
def CleanCols (l : List String) : Prop :=
  l.Nodup ∧ ∀ s ∈ l, pyStrip s = s ∧ s ≠ "" ∧ pyLower s ≠ "nan"

/-- Every column label one full run can put on the county table, in merge
order: the two base tables (join key deduplicated), the derived name key, and
the three enrichment sources' canonical columns. -/
def pipelineAllCols (geoCols statsCols : List String) : List String :=
  geoCols ++ statsCols.erase "GEOID" ++ ["NAME_clean"] ++ aqiAddCols ++ leadTargetCols ++
    ["Elec_Consumption_MWh_perCapita"]

/- ===================== theorems: C4 then C3 ===================== -/

theorem pyZfill_length (w : ℕ) (l : List Char) : (pyZfill w l).length = max w l.length := by
  unfold pyZfill
  by_cases h : w ≤ l.length
  · simp [h, Nat.max_eq_right h]
  · have hlt : l.length < w := Nat.lt_of_not_le h
    simp only [if_neg h]
    cases l with
    | nil => simp
    | cons c rest =>
      by_cases hs : c = '+' ∨ c = '-'
      · simp only [if_pos hs, List.length_cons, List.length_append, List.length_replicate]
        omega
      · simp only [if_neg hs, List.length_append, List.length_replicate, List.length_cons]
        omega

/-- Claim C4 counterexample: the normalizer does not truncate, so a 7-character
input string comes back with 7 characters, not 5. -/
theorem coerce_fips_not_always_five : ¬ (_coerce_fips "1234567").length = 5 := by decide

/-- Claim C4 (amended): the output of `_coerce_fips` always has at least 5
characters, and exactly 5 whenever the whitespace-stripped, `.0`-removed input
has at most 5 characters. -/
theorem coerce_fips_length (s : String) :
    5 ≤ (_coerce_fips s).length ∧
    ((replaceDot0 (stripData s.data)).length ≤ 5 → (_coerce_fips s).length = 5) := by
  have h : (_coerce_fips s).length = max 5 (replaceDot0 (stripData s.data)).length := by
    have := pyZfill_length 5 (replaceDot0 (stripData s.data))
    simpa [_coerce_fips, String.length] using this
  constructor
  · rw [h]; exact Nat.le_max_left _ _
  · intro hle; rw [h]; omega

theorem coerce_fips_length_witness :
    (replaceDot0 (stripData ("17031" : String).data)).length ≤ 5 ∧
    (_coerce_fips "17031").length = 5 :=
  ⟨by decide, (coerce_fips_length "17031").2 (by decide)⟩

theorem replaceDot0_id (l : List Char) (h : containsSeq ['.', '0'] l = false) :
    replaceDot0 l = l := by
  induction l using replaceDot0.induct with
  | case1 rest ih =>
    simp [containsSeq, List.isPrefixOf] at h
  | case2 c rest hne ih =>
    have hstep : replaceDot0 (c :: rest) = c :: replaceDot0 rest := by
      simp only [replaceDot0]
    rw [hstep]
    have ht : containsSeq ['.', '0'] rest = false := by
      simp [containsSeq] at h
      exact h.2
    rw [ih ht]
  | case3 => rfl

theorem pyZfill_of_long (w : ℕ) (l : List Char) (h : w ≤ l.length) : pyZfill w l = l := by
  unfold pyZfill
  simp [h]

theorem string_mk_data (s : String) : String.mk s.data = s := rfl

/-- Claim C3 counterexample: `_coerce_fips` is not idempotent on all strings.
On `"..00"` the single left-to-right replacement pass creates a fresh `.0`
occurrence (`"..00" → ".0"`), which the second application then removes:
`_coerce_fips "..00" = "000.0"` but `_coerce_fips "000.0" = "00000"`. -/
theorem coerce_fips_not_idempotent :
    ¬ (_coerce_fips (_coerce_fips "..00") = _coerce_fips "..00") := by decide

/-- Claim C3 (amended): `_coerce_fips` is idempotent on every input whose
normalized output carries no leading/trailing whitespace and contains no
further `.0` occurrence (the replacement pass can both expose whitespace at
the ends and create new `.0` occurrences, and only then does a second
application differ). -/
theorem coerce_fips_idempotent_on (s : String)
    (h1 : pyStrip (_coerce_fips s) = _coerce_fips s)
    (h2 : containsSeq ['.', '0'] (_coerce_fips s).data = false) :
    _coerce_fips (_coerce_fips s) = _coerce_fips s := by
  have hstrip : stripData (_coerce_fips s).data = (_coerce_fips s).data := by
    have := congrArg String.data h1
    simpa [pyStrip] using this
  have hrep : replaceDot0 (_coerce_fips s).data = (_coerce_fips s).data :=
    replaceDot0_id _ h2
  have hlen : 5 ≤ (_coerce_fips s).data.length := (coerce_fips_length s).1
  show (⟨pyZfill 5 (replaceDot0 (stripData (_coerce_fips s).data))⟩ : String) = _coerce_fips s
  rw [hstrip, hrep, pyZfill_of_long 5 _ hlen]

theorem coerce_fips_idempotent_witness :
    pyStrip (_coerce_fips "17031.0") = _coerce_fips "17031.0" ∧
    containsSeq ['.', '0'] (_coerce_fips "17031.0").data = false ∧
    _coerce_fips (_coerce_fips "17031.0") = _coerce_fips "17031.0" :=
  ⟨by decide, by decide, coerce_fips_idempotent_on "17031.0" (by decide) (by decide)⟩

/- ===================== theorems: C2 ===================== -/

theorem charVal_digitChar : ∀ n, n < 10 → charVal (Nat.digitChar n) = n := by decide

theorem digitChar_isDigit : ∀ n, n < 10 → (Nat.digitChar n).isDigit = true := by decide

theorem valOf_append_singleton (l : List Char) (c : Char) :
    valOf (l ++ [c]) = 10 * valOf l + charVal c := by
  simp [valOf, List.foldl_append]

theorem toDigitsCore_spec :
    ∀ (fuel n : ℕ) (ds : List Char), n < 10 ^ (fuel + 1) →
      ∃ xs, Nat.toDigitsCore 10 (fuel + 1) n ds = xs ++ ds ∧ valOf xs = n ∧ xs ≠ [] ∧
        ∀ c ∈ xs, c.isDigit = true := by
  intro fuel
  induction fuel with
  | zero =>
    intro n ds h
    have h10 : n < 10 := by simpa using h
    have h0 : n / 10 = 0 := Nat.div_eq_of_lt h10
    refine ⟨[Nat.digitChar (n % 10)], ?_, ?_, by simp, ?_⟩
    · simp [Nat.toDigitsCore, h0]
    · simp only [valOf, List.foldl, Nat.mod_eq_of_lt h10]
      rw [charVal_digitChar n h10]
      omega
    · intro c hc
      simp at hc
      rw [hc]
      exact digitChar_isDigit _ (Nat.mod_lt _ (by norm_num))
  | succ fuel ih =>
    intro n ds h
    by_cases h0 : n / 10 = 0
    · have h10 : n < 10 := (Nat.div_eq_zero_iff (by norm_num)).mp h0
      refine ⟨[Nat.digitChar (n % 10)], ?_, ?_, by simp, ?_⟩
      · simp [Nat.toDigitsCore, h0]
      · simp only [valOf, List.foldl, Nat.mod_eq_of_lt h10]
        rw [charVal_digitChar n h10]
        omega
      · intro c hc
        simp at hc
        rw [hc]
        exact digitChar_isDigit _ (Nat.mod_lt _ (by norm_num))
    · have hlt : n / 10 < 10 ^ (fuel + 1) := by
        rw [Nat.div_lt_iff_lt_mul (by norm_num : (0:ℕ) < 10)]
        calc n < 10 ^ (fuel + 2) := h
        _ = 10 ^ (fuel + 1) * 10 := by ring
      obtain ⟨xs, heq, hval, hne, hdig⟩ := ih (n / 10) (Nat.digitChar (n % 10) :: ds) hlt
      refine ⟨xs ++ [Nat.digitChar (n % 10)], ?_, ?_, by simp [hne], ?_⟩
      · have hstep : Nat.toDigitsCore 10 (fuel + 1 + 1) n ds =
            Nat.toDigitsCore 10 (fuel + 1) (n / 10) (Nat.digitChar (n % 10) :: ds) := by
          simp [Nat.toDigitsCore, h0]
        rw [hstep, heq]
        simp
      · rw [valOf_append_singleton, hval, charVal_digitChar _ (Nat.mod_lt _ (by norm_num))]
        omega
      · intro c hc
        rcases List.mem_append.mp hc with hc | hc
        · exact hdig c hc
        · simp at hc
          rw [hc]
          exact digitChar_isDigit _ (Nat.mod_lt _ (by norm_num))

theorem repr_spec (n : ℕ) :
    valOf (Nat.repr n).data = n ∧ (Nat.repr n).data ≠ [] ∧
      ∀ c ∈ (Nat.repr n).data, c.isDigit = true := by
  have hn : n < 10 ^ (n + 1) :=
    lt_of_lt_of_le (Nat.lt_pow_self (by norm_num) n)
      (Nat.pow_le_pow_right (by norm_num) (Nat.le_succ n))
  obtain ⟨xs, heq, hval, hne, hdig⟩ := toDigitsCore_spec n n [] hn
  have hdata : (Nat.repr n).data = xs := by
    show (Nat.toDigits 10 n).asString.data = xs
    rw [Nat.toDigits, heq]
    simp [List.asString]
  rw [hdata]
  exact ⟨hval, hne, hdig⟩

theorem repr_injective : Function.Injective Nat.repr := by
  intro a b h
  have ha := (repr_spec a).1
  have hb := (repr_spec b).1
  rw [← ha, ← hb, h]

theorem isPrefixOf_append_self (p r : List Char) : p.isPrefixOf (p ++ r) = true := by
  induction p with
  | nil => simp [List.isPrefixOf]
  | cons c t ih => simp [List.isPrefixOf, ih]

theorem containsSeq_false_spec {pat : List Char} :
    ∀ {l}, containsSeq pat l = false → ∀ xs ys, l ≠ xs ++ pat ++ ys := by
  intro l
  induction l with
  | nil =>
    intro h xs ys heq
    have hx : xs = [] := by
      cases xs with
      | nil => rfl
      | cons a b => simp at heq
    rw [hx] at heq
    simp only [List.nil_append] at heq
    have hpat : pat = [] := (List.append_eq_nil.mp heq.symm).1
    rw [hpat] at h
    simp [containsSeq] at h
  | cons c t ih =>
    intro h xs ys heq
    rw [containsSeq, Bool.or_eq_false_iff] at h
    obtain ⟨h1, h2⟩ := h
    cases xs with
    | nil =>
      simp only [List.nil_append] at heq
      rw [heq, isPrefixOf_append_self] at h1
      simp at h1
    | cons x xs =>
      injection heq with _ h3
      exact ih h2 xs ys h3

theorem count_le_one_noDU {l : List Char} (h : l.count '_' ≤ 1) : NoDU l := by
  intro xs ys heq
  rw [heq] at h
  simp [List.count_append, List.count_cons] at h
  omega

theorem noDU_tail {a : Char} {t : List Char} (h : NoDU (a :: t)) : NoDU t := by
  intro xs ys heq
  exact h (a :: xs) ys (by rw [heq]; rfl)

theorem doubleSplit :
    ∀ (m n ds dt : List Char), NoDU m → NoDU n →
      ds.head? ≠ some '_' → dt.head? ≠ some '_' →
      m ++ '_' :: '_' :: ds = n ++ '_' :: '_' :: dt → m = n ∧ ds = dt := by
  intro m
  induction m with
  | nil =>
    intro n ds dt hm hn hds hdt heq
    cases n with
    | nil =>
      simp only [List.nil_append] at heq
      injection heq with _ h1
      injection h1 with _ h2
      exact ⟨rfl, h2⟩
    | cons b n2 =>
      simp only [List.nil_append, List.cons_append] at heq
      injection heq with hb h1
      cases n2 with
      | nil =>
        simp only [List.nil_append] at h1
        injection h1 with _ h2
        exact absurd (by rw [h2]; rfl) hds
      | cons b2 n3 =>
        simp only [List.cons_append] at h1
        injection h1 with hb2 _
        exact absurd (by rw [← hb, ← hb2]; rfl : (b :: b2 :: n3 : List Char) = [] ++ '_' :: '_' :: n3)
          (hn [] n3)
  | cons a m2 ih =>
    intro n ds dt hm hn hds hdt heq
    cases n with
    | nil =>
      simp only [List.nil_append, List.cons_append] at heq
      injection heq with ha h1
      cases m2 with
      | nil =>
        simp only [List.nil_append] at h1
        injection h1 with _ h2
        exact absurd (by rw [← h2]; rfl) hdt
      | cons a2 m3 =>
        simp only [List.cons_append] at h1
        injection h1 with ha2 _
        exact absurd (by rw [ha, ha2]; rfl : (a :: a2 :: m3 : List Char) = [] ++ '_' :: '_' :: m3)
          (hm [] m3)
    | cons b n2 =>
      simp only [List.cons_append] at heq
      injection heq with hab h1
      obtain ⟨hmn, hdd⟩ := ih n2 ds dt (noDU_tail hm) (noDU_tail hn) hds hdt h1
      exact ⟨by rw [hab, hmn], hdd⟩

theorem digit_ne_underscore {c : Char} (h : c.isDigit = true) : c ≠ '_' := by
  intro he
  rw [he] at h
  exact absurd h (by decide)

theorem repr_head_not_underscore (j : ℕ) : (Nat.repr j).data.head? ≠ some '_' := by
  obtain ⟨-, hne, hdig⟩ := repr_spec j
  cases hh : (Nat.repr j).data with
  | nil => exact absurd hh hne
  | cons c t =>
    simp only [List.head?, ne_eq, Option.some.injEq]
    intro hce
    have hcmem : c ∈ (Nat.repr j).data := by rw [hh]; exact List.mem_cons_self c t
    exact digit_ne_underscore (hdig c hcmem) hce

theorem repr_noDU (j : ℕ) : NoDU (Nat.repr j).data := by
  apply count_le_one_noDU
  have hz : (Nat.repr j).data.count '_' = 0 :=
    List.count_eq_zero.mpr (fun hmem => digit_ne_underscore ((repr_spec j).2.2 _ hmem) rfl)
  omega

theorem string_data_inj {s t : String} (h : s.data = t.data) : s = t := by
  cases s
  cases t
  exact congrArg String.mk h

theorem data_double (a : String) (j : ℕ) :
    (a ++ "__" ++ Nat.repr j).data = a.data ++ '_' :: '_' :: (Nat.repr j).data := by
  simp [String.data_append]

theorem string_append_empty (s : String) : s ++ "" = s := by
  apply string_data_inj
  simp [String.data_append]

theorem string_append_assoc (a b c : String) : a ++ b ++ c = a ++ (b ++ c) := by
  apply string_data_inj
  simp [String.data_append]

theorem colName_noDU (i : ℕ) : NoDU ("col_" ++ Nat.repr i).data := by
  apply count_le_one_noDU
  have hz : (Nat.repr i).data.count '_' = 0 :=
    List.count_eq_zero.mpr (fun hmem => digit_ne_underscore ((repr_spec i).2.2 _ hmem) rfl)
  have hd : ("col_" ++ Nat.repr i).data = 'c' :: 'o' :: 'l' :: '_' :: (Nat.repr i).data := by
    simp [String.data_append]
  rw [hd]
  simp [List.count_cons, hz]

theorem processName_noDU (i : ℕ) (c : Option String)
    (h : ∀ t, c = some t → NoDU (pyStrip t).data) : NoDU (processName i c).data := by
  cases c with
  | none => simpa [processName] using colName_noDU i
  | some s =>
    by_cases hc : pyStrip s = "" ∨ pyLower (pyStrip s) = "nan"
    · simpa [processName, hc] using colName_noDU i
    · simpa [processName, hc] using h s rfl

theorem lookupSeen_cons (p : String × ℕ) (seen : List (String × ℕ)) (m : String) :
    lookupSeen (p :: seen) m = if p.1 = m then some p.2 else lookupSeen seen m := by
  by_cases h : p.1 = m <;> simp [lookupSeen, List.find?_cons, h]

theorem lookupSeen_mem {seen : List (String × ℕ)} {n : String} {k : ℕ}
    (h : lookupSeen seen n = some k) : ∃ p ∈ seen, p.1 = n ∧ p.2 = k := by
  unfold lookupSeen at h
  rcases hfind : seen.find? (fun p => p.1 == n) with _ | q
  · rw [hfind] at h
    simp at h
  · rw [hfind] at h
    simp at h
    have hq : q.1 = n := by
      have := List.find?_some hfind
      simpa using this
    exact ⟨q, List.mem_of_find?_eq_some hfind, hq, h⟩

theorem lookupSeen_bump_other {seen : List (String × ℕ)} {n m : String} (k : ℕ)
    (hmn : m ≠ n) : lookupSeen (bumpSeen seen n k) m = lookupSeen seen m := by
  induction seen with
  | nil => rfl
  | cons p t ih =>
    simp only [bumpSeen, List.map_cons]
    by_cases hpn : p.1 = n
    · have hhead : (if (p.1 == n) = true then (p.1, k) else p) = (p.1, k) := by simp [hpn]
      rw [hhead, lookupSeen_cons, lookupSeen_cons]
      have hne : ¬ p.1 = m := fun hh => hmn (by rw [← hh, hpn])
      rw [if_neg hne, if_neg hne]
      exact ih
    · have hhead : (if (p.1 == n) = true then (p.1, k) else p) = p := by simp [hpn]
      rw [hhead, lookupSeen_cons, lookupSeen_cons]
      by_cases hpm : p.1 = m
      · rw [if_pos hpm, if_pos hpm]
      · rw [if_neg hpm, if_neg hpm]
        exact ih

theorem lookupSeen_bump_self {seen : List (String × ℕ)} {n : String} {k0 : ℕ}
    (h : lookupSeen seen n = some k0) (k : ℕ) :
    lookupSeen (bumpSeen seen n k) n = some k := by
  induction seen with
  | nil => simp [lookupSeen] at h
  | cons p t ih =>
    simp only [bumpSeen, List.map_cons]
    by_cases hpn : p.1 = n
    · have hhead : (if (p.1 == n) = true then (p.1, k) else p) = (p.1, k) := by simp [hpn]
      rw [hhead, lookupSeen_cons, if_pos hpn]
    · have hhead : (if (p.1 == n) = true then (p.1, k) else p) = p := by simp [hpn]
      rw [hhead, lookupSeen_cons, if_neg hpn]
      rw [lookupSeen_cons, if_neg hpn] at h
      exact ih h

theorem bumpSeen_counts {seen : List (String × ℕ)} (hcnt : ∀ p ∈ seen, 1 ≤ p.2)
    {n : String} {k : ℕ} (hk : 1 ≤ k) : ∀ p ∈ bumpSeen seen n k, 1 ≤ p.2 := by
  intro p hp
  rcases List.mem_map.mp hp with ⟨q, hq, hqe⟩
  by_cases hqn : q.1 = n
  · rw [← hqe]
    simp [hqn, hk]
  · rw [← hqe]
    simp [hqn]
    exact hcnt q hq

theorem uniqueGo_mem :
    ∀ (cs : List (Option String)) (i : ℕ) (seen : List (String × ℕ)),
      (∀ p ∈ seen, 1 ≤ p.2) →
      (∀ c ∈ cs, ∀ t, c = some t → NoDU (pyStrip t).data) →
      ∀ s ∈ uniqueGo i seen cs,
        (NoDU s.data ∧ lookupSeen seen s = none) ∨
        (∃ nm j, NoDU nm.data ∧ 2 ≤ j ∧ s = nm ++ "__" ++ Nat.repr j ∧
          ∀ k, lookupSeen seen nm = some k → k < j) := by
  intro cs
  induction cs with
  | nil =>
    intro i seen _ _ s hs
    simp [uniqueGo] at hs
  | cons c cs ih =>
    intro i seen hcnt hH s hs
    have hHhead : ∀ t, c = some t → NoDU (pyStrip t).data :=
      fun t ht => hH c (List.mem_cons_self c cs) t ht
    have hHtail : ∀ d ∈ cs, ∀ t, d = some t → NoDU (pyStrip t).data :=
      fun d hd => hH d (List.mem_cons_of_mem c hd)
    have hnd : NoDU (processName i c).data := processName_noDU i c hHhead
    rcases hlk : lookupSeen seen (processName i c) with _ | k
    · simp only [uniqueGo, hlk] at hs
      rcases List.mem_cons.mp hs with hh | hh
      · exact Or.inl ⟨hh ▸ hnd, hh ▸ hlk⟩
      · have hcnt' : ∀ p ∈ ((processName i c, 1) :: seen), 1 ≤ p.2 := by
          intro p hp
          rcases List.mem_cons.mp hp with hp | hp
          · rw [hp]
          · exact hcnt p hp
        rcases ih (i + 1) _ hcnt' hHtail s hh with ⟨hnds, hlks⟩ | ⟨nm, j, hndnm, hj, hse, hlt⟩
        · left
          refine ⟨hnds, ?_⟩
          rw [lookupSeen_cons] at hlks
          by_cases hh2 : processName i c = s
          · rw [if_pos hh2] at hlks
            cases hlks
          · rwa [if_neg hh2] at hlks
        · right
          refine ⟨nm, j, hndnm, hj, hse, ?_⟩
          intro k hk
          apply hlt k
          rw [lookupSeen_cons]
          by_cases hh2 : processName i c = nm
          · rw [← hh2, hlk] at hk
            cases hk
          · rw [if_neg hh2]
            exact hk
    · simp only [uniqueGo, hlk] at hs
      have hk1 : 1 ≤ k := by
        obtain ⟨p, hp, _, hp2⟩ := lookupSeen_mem hlk
        rw [← hp2]
        exact hcnt p hp
      rcases List.mem_cons.mp hs with hh | hh
      · right
        refine ⟨processName i c, k + 1, hnd, by omega, hh, ?_⟩
        intro k0 hk0
        rw [hlk] at hk0
        injection hk0 with hk0
        omega
      · have hcnt' := bumpSeen_counts hcnt (show 1 ≤ k + 1 by omega) (n := processName i c)
        rcases ih (i + 1) _ hcnt' hHtail s hh with ⟨hnds, hlks⟩ | ⟨nm, j, hndnm, hj, hse, hlt⟩
        · left
          refine ⟨hnds, ?_⟩
          by_cases hh2 : s = processName i c
          · exfalso
            rw [hh2, lookupSeen_bump_self hlk (k + 1)] at hlks
            cases hlks
          · rwa [lookupSeen_bump_other (k + 1) hh2] at hlks
        · right
          refine ⟨nm, j, hndnm, hj, hse, ?_⟩
          intro k0 hk0
          by_cases hh2 : nm = processName i c
          · have hlt2 := hlt (k + 1) (by rw [hh2]; exact lookupSeen_bump_self hlk (k + 1))
            rw [hh2, hlk] at hk0
            injection hk0 with hk0
            omega
          · exact hlt k0 (by rw [lookupSeen_bump_other (k + 1) hh2]; exact hk0)

theorem uniqueGo_nodup :
    ∀ (cs : List (Option String)) (i : ℕ) (seen : List (String × ℕ)),
      (∀ p ∈ seen, 1 ≤ p.2) →
      (∀ c ∈ cs, ∀ t, c = some t → NoDU (pyStrip t).data) →
      (uniqueGo i seen cs).Nodup := by
  intro cs
  induction cs with
  | nil =>
    intro i seen _ _
    simp [uniqueGo]
  | cons c cs ih =>
    intro i seen hcnt hH
    have hHhead : ∀ t, c = some t → NoDU (pyStrip t).data :=
      fun t ht => hH c (List.mem_cons_self c cs) t ht
    have hHtail : ∀ d ∈ cs, ∀ t, d = some t → NoDU (pyStrip t).data :=
      fun d hd => hH d (List.mem_cons_of_mem c hd)
    have hnd : NoDU (processName i c).data := processName_noDU i c hHhead
    rcases hlk : lookupSeen seen (processName i c) with _ | k
    · have hcnt' : ∀ p ∈ ((processName i c, 1) :: seen), 1 ≤ p.2 := by
        intro p hp
        rcases List.mem_cons.mp hp with hp | hp
        · rw [hp]
        · exact hcnt p hp
      simp only [uniqueGo, hlk]
      refine List.nodup_cons.mpr ⟨?_, ih (i + 1) _ hcnt' hHtail⟩
      intro hmem
      rcases uniqueGo_mem cs (i + 1) _ hcnt' hHtail _ hmem with ⟨_, hlks⟩ | ⟨nm, j, _, _, hse, _⟩
      · rw [lookupSeen_cons, if_pos rfl] at hlks
        cases hlks
      · exact hnd nm.data (Nat.repr j).data (by rw [hse, data_double])
    · have hk1 : 1 ≤ k := by
        obtain ⟨p, hp, _, hp2⟩ := lookupSeen_mem hlk
        rw [← hp2]
        exact hcnt p hp
      have hcnt' := bumpSeen_counts hcnt (show 1 ≤ k + 1 by omega) (n := processName i c)
      simp only [uniqueGo, hlk]
      refine List.nodup_cons.mpr ⟨?_, ih (i + 1) _ hcnt' hHtail⟩
      intro hmem
      rcases uniqueGo_mem cs (i + 1) _ hcnt' hHtail _ hmem with ⟨hnds, _⟩ | ⟨nm, j, hndnm, hj, hse, hlt⟩
      · exact hnds (processName i c).data (Nat.repr (k + 1)).data (data_double _ _)
      · have hdata : nm.data ++ '_' :: '_' :: (Nat.repr j).data =
            (processName i c).data ++ '_' :: '_' :: (Nat.repr (k + 1)).data := by
          rw [← data_double, ← data_double, ← hse]
        obtain ⟨hmn, hdd⟩ := doubleSplit nm.data (processName i c).data (Nat.repr j).data
          (Nat.repr (k + 1)).data hndnm hnd (repr_head_not_underscore j)
          (repr_head_not_underscore (k + 1)) hdata
        have hjk : j = k + 1 := repr_injective (string_data_inj hdd)
        have hlt2 := hlt (k + 1)
          (by rw [string_data_inj hmn]; exact lookupSeen_bump_self hlk (k + 1))
        omega

theorem uniqueGo_length :
    ∀ (cs : List (Option String)) (i : ℕ) (seen : List (String × ℕ)),
      (uniqueGo i seen cs).length = cs.length := by
  intro cs
  induction cs with
  | nil => intro i seen; rfl
  | cons c cs ih =>
    intro i seen
    rcases hlk : lookupSeen seen (processName i c) with _ | k <;>
      simp only [uniqueGo, hlk, List.length_cons, ih]

theorem uniqueGo_get? :
    ∀ (cs : List (Option String)) (i : ℕ) (seen : List (String × ℕ)) (j : ℕ) (c : Option String),
      cs.get? j = some c →
      ∃ suf, (uniqueGo i seen cs).get? j = some (processName (i + j) c ++ suf) := by
  intro cs
  induction cs with
  | nil =>
    intro i seen j c h
    simp at h
  | cons d cs ih =>
    intro i seen j c h
    cases j with
    | zero =>
      simp only [List.get?] at h
      injection h with h
      rcases hlk : lookupSeen seen (processName i d) with _ | k
      · refine ⟨"", ?_⟩
        simp only [uniqueGo, hlk, List.get?]
        rw [Nat.add_zero, ← h, string_append_empty]
      · refine ⟨"__" ++ Nat.repr (k + 1), ?_⟩
        simp only [uniqueGo, hlk, List.get?]
        rw [Nat.add_zero, ← h, string_append_assoc]
        simp
    | succ j =>
      simp only [List.get?] at h
      have harith : i + 1 + j = i + (j + 1) := by omega
      rcases hlk : lookupSeen seen (processName i d) with _ | k
      · obtain ⟨suf, hsuf⟩ := ih (i + 1) ((processName i d, 1) :: seen) j c h
        refine ⟨suf, ?_⟩
        simp only [uniqueGo, hlk, List.get?]
        rw [← harith]
        exact hsuf
      · obtain ⟨suf, hsuf⟩ := ih (i + 1) (bumpSeen seen (processName i d) (k + 1)) j c h
        refine ⟨suf, ?_⟩
        simp only [uniqueGo, hlk, List.get?]
        rw [← harith]
        exact hsuf

/-- Claim C2 counterexample: the deduplicator can emit a repeated label.  On
`["a", "a", "a__2"]` the second `"a"` is renamed `"a__2"`, colliding with the
third input label, which is fresh to the `seen` dictionary and kept as is. -/
theorem make_unique_columns_collision :
    _make_unique_columns [some "a", some "a", some "a__2"] = ["a", "a__2", "a__2"] ∧
    ¬ List.Nodup (_make_unique_columns [some "a", some "a", some "a__2"]) :=
  ⟨by decide, by decide⟩

/-- Claim C2 (amended): for every ordered sequence of column labels the
deduplicator returns a sequence of the same length whose entry at each
position extends the processed label at that position (same positional
order); the output has no repeated labels provided no non-blank stripped
input label contains two consecutive underscores (the counterexample shows
repeats are otherwise possible). -/
theorem make_unique_columns_spec (cols : List (Option String)) :
    (_make_unique_columns cols).length = cols.length ∧
    (∀ j c, cols.get? j = some c →
      ∃ suf, (_make_unique_columns cols).get? j = some (processName j c ++ suf)) ∧
    ((∀ c ∈ cols, ∀ t, c = some t → containsSeq ['_', '_'] (pyStrip t).data = false) →
      List.Nodup (_make_unique_columns cols)) := by
  refine ⟨uniqueGo_length cols 0 [], ?_, ?_⟩
  · intro j c h
    obtain ⟨suf, hsuf⟩ := uniqueGo_get? cols 0 [] j c h
    rw [Nat.zero_add] at hsuf
    exact ⟨suf, hsuf⟩
  · intro hfree
    apply uniqueGo_nodup cols 0 []
    · intro p hp
      simp at hp
    · intro c hc t ht
      intro xs ys heq
      exact containsSeq_false_spec (hfree c hc t ht) xs ys (by simpa using heq)

theorem make_unique_columns_spec_witness :
    (∀ c ∈ [some "NAME", some "NAME", none], ∀ t, c = some t →
      containsSeq ['_', '_'] (pyStrip t).data = false) ∧
    List.Nodup (_make_unique_columns [some "NAME", some "NAME", none]) ∧
    ([some "NAME", some "NAME", none] : List (Option String)).get? 1 = some (some "NAME") ∧
    ∃ suf, (_make_unique_columns [some "NAME", some "NAME", none]).get? 1 =
      some (processName 1 (some "NAME") ++ suf) :=
  ⟨by decide,
   (make_unique_columns_spec [some "NAME", some "NAME", none]).2.2 (by decide),
   by decide,
   (make_unique_columns_spec [some "NAME", some "NAME", none]).2.1 1 (some "NAME") (by decide)⟩

/- ===================== theorems: C5, C6, C1 ===================== -/

theorem foldl_min_le_init (t : List ℚ) (h : ℚ) : t.foldl min h ≤ h := by
  induction t generalizing h with
  | nil => exact le_refl h
  | cons a t ih => exact le_trans (ih (min h a)) (min_le_left h a)

theorem le_foldl_max_init (t : List ℚ) (h : ℚ) : h ≤ t.foldl max h := by
  induction t generalizing h with
  | nil => exact le_refl h
  | cons a t ih => exact le_trans (le_max_left h a) (ih (max h a))

theorem foldl_min_le (t : List ℚ) (h x : ℚ) (hx : x = h ∨ x ∈ t) : t.foldl min h ≤ x := by
  induction t generalizing h with
  | nil =>
    rcases hx with hx | hx
    · rw [hx]
      exact le_refl h
    · simp at hx
  | cons a t ih =>
    rcases hx with hx | hx
    · rw [hx]
      exact le_trans (foldl_min_le_init t (min h a)) (min_le_left h a)
    · rcases List.mem_cons.mp hx with hx | hx
      · rw [hx]
        exact le_trans (foldl_min_le_init t (min h a)) (min_le_right h a)
      · exact ih (min h a) (Or.inr hx)

theorem le_foldl_max (t : List ℚ) (h x : ℚ) (hx : x = h ∨ x ∈ t) : x ≤ t.foldl max h := by
  induction t generalizing h with
  | nil =>
    rcases hx with hx | hx
    · rw [hx]
      exact le_refl h
    · simp at hx
  | cons a t ih =>
    rcases hx with hx | hx
    · rw [hx]
      exact le_trans (le_max_left h a) (le_foldl_max_init t (max h a))
    · rcases List.mem_cons.mp hx with hx | hx
      · rw [hx]
        exact le_trans (le_max_right h a) (le_foldl_max_init t (max h a))
      · exact ih (max h a) (Or.inr hx)

theorem foldl_min_const {t : List ℚ} {v : ℚ} (ht : ∀ x ∈ t, x = v) : t.foldl min v = v := by
  induction t with
  | nil => rfl
  | cons a t ih =>
    have ha : a = v := ht a (List.mem_cons_self a t)
    have hm : min v a = v := by rw [ha, min_self]
    simp only [List.foldl, hm]
    exact ih (fun x hx => ht x (List.mem_cons_of_mem a hx))

theorem foldl_max_const {t : List ℚ} {v : ℚ} (ht : ∀ x ∈ t, x = v) : t.foldl max v = v := by
  induction t with
  | nil => rfl
  | cons a t ih =>
    have ha : a = v := ht a (List.mem_cons_self a t)
    have hm : max v a = v := by rw [ha, max_self]
    simp only [List.foldl, hm]
    exact ih (fun x hx => ht x (List.mem_cons_of_mem a hx))

theorem mem_presentVals {l : List (Option ℚ)} {x : ℚ} (h : some x ∈ l) : x ∈ presentVals l :=
  List.mem_filterMap.mpr ⟨some x, h, rfl⟩

theorem presentVals_nil_all_none {l : List (Option ℚ)} (h : presentVals l = []) :
    ∀ o ∈ l, o = none := by
  intro o ho
  cases o with
  | none => rfl
  | some x =>
    exfalso
    have := mem_presentVals ho
    rw [h] at this
    simp at this

theorem minmax_get?_eq (l : List (Option ℚ)) (i : ℕ) (hi : i < l.length) :
    (_minmax l).get? i = some (minmaxSpecAt l i) := by
  obtain ⟨o, ho⟩ : ∃ o, l.get? i = some o := by
    rcases hh : l.get? i with _ | o
    · exact absurd (List.get?_eq_none.mp hh) (by omega)
    · exact ⟨o, rfl⟩
  rcases hpv : presentVals l with _ | ⟨hd, t⟩
  · have hall := presentVals_nil_all_none hpv
    have hmm : _minmax l = l := by
      unfold _minmax
      rw [hpv]
    rw [hmm, ho]
    have hno : o = none := hall o (List.get?_mem ho)
    rw [hno]
    unfold minmaxSpecAt
    rw [ho, hno]
    rfl
  · have hmn_spec : specMinOf l = t.foldl min hd := by unfold specMinOf; rw [hpv]
    have hmx_spec : specMaxOf l = t.foldl max hd := by unfold specMaxOf; rw [hpv]
    unfold _minmax
    rw [hpv]
    by_cases hme : t.foldl max hd = t.foldl min hd
    · simp only [if_pos hme, List.get?_map, ho, Option.map_some']
      unfold minmaxSpecAt
      rw [ho, hmn_spec, hmx_spec]
      cases o with
      | none => rfl
      | some x =>
        simp only [Option.getD_some, Option.map_some', Option.some.injEq]
        rw [hme, sub_self, div_zero, mul_zero]
    · simp only [if_neg hme, List.get?_map, ho, Option.map_some']
      unfold minmaxSpecAt
      rw [ho, hmn_spec, hmx_spec]
      rfl

theorem minmax_entry_bounds {l : List (Option ℚ)} {i : ℕ} {x : ℚ}
    (h : (_minmax l).get? i = some (some x)) : 0 ≤ x ∧ x ≤ 1 := by
  rcases hpv : presentVals l with _ | ⟨hd, t⟩
  · have hmm : _minmax l = l := by unfold _minmax; rw [hpv]
    rw [hmm] at h
    have := presentVals_nil_all_none hpv (some x) (List.get?_mem h)
    cases this
  · have hle : t.foldl min hd ≤ t.foldl max hd :=
      le_trans (foldl_min_le_init t hd) (le_foldl_max_init t hd)
    have hmm : _minmax l =
        (if t.foldl max hd = t.foldl min hd then l.map (fun o => o.map (fun x => x * 0))
         else l.map (fun o => o.map (fun x =>
           (x - t.foldl min hd) / (t.foldl max hd - t.foldl min hd)))) := by
      unfold _minmax
      rw [hpv]
    rw [hmm] at h
    by_cases hme : t.foldl max hd = t.foldl min hd
    · rw [if_pos hme, List.get?_map] at h
      rcases ho : l.get? i with _ | o
      · rw [ho] at h
        cases h
      · rw [ho] at h
        cases o with
        | none => simp at h
        | some y =>
          simp at h
          rw [← h]
          norm_num
    · rw [if_neg hme, List.get?_map] at h
      rcases ho : l.get? i with _ | o
      · rw [ho] at h
        cases h
      · rw [ho] at h
        cases o with
        | none => simp at h
        | some y =>
          simp at h
          have hy : y ∈ presentVals l := mem_presentVals (List.get?_mem ho)
          rw [hpv] at hy
          have hy' : y = hd ∨ y ∈ t := List.mem_cons.mp hy
          have hmny : t.foldl min hd ≤ y := foldl_min_le t hd y hy'
          have hymx : y ≤ t.foldl max hd := le_foldl_max t hd y hy'
          have hlt : t.foldl min hd < t.foldl max hd := lt_of_le_of_ne hle (fun hh => hme hh.symm)
          rw [← h]
          constructor
          · apply div_nonneg <;> linarith
          · rw [div_le_one (by linarith)]
            linarith

theorem rhe_nonneg {q : ℚ} (h : 0 ≤ q) : 0 ≤ rhe q := by
  have hf : (0 : ℤ) ≤ ⌊q⌋ := Int.le_floor.mpr (by exact_mod_cast h)
  unfold rhe
  split_ifs <;> omega

theorem rhe_le {q : ℚ} {B : ℤ} (h : q ≤ B) : rhe q ≤ B := by
  have hfB : ⌊q⌋ ≤ B := by
    have := Int.floor_le_floor h
    rwa [Int.floor_intCast] at this
  have hr2 : ¬ (q - ⌊q⌋ < 1/2) → ⌊q⌋ + 1 ≤ B := by
    intro hr
    rcases lt_or_eq_of_le hfB with hlt | heq
    · omega
    · exfalso
      have hcast : ((⌊q⌋ : ℚ)) = (B : ℚ) := by exact_mod_cast heq
      have hle0 : q - (⌊q⌋ : ℚ) ≤ 0 := by
        rw [hcast]
        linarith
      push_neg at hr
      linarith
  unfold rhe
  split_ifs with h1 h2 h3
  · exact hfB
  · exact hr2 h1
  · exact hfB
  · exact hr2 h1

theorem round1_bounds {q : ℚ} (h0 : 0 ≤ q) (h1 : q ≤ 100) :
    0 ≤ round1 q ∧ round1 q ≤ 100 := by
  have hnn : (0 : ℤ) ≤ rhe (q * 10) := rhe_nonneg (by linarith)
  have hub : rhe (q * 10) ≤ (1000 : ℤ) := rhe_le (by push_cast; linarith)
  have hnn' : (0 : ℚ) ≤ (rhe (q * 10) : ℚ) := by exact_mod_cast hnn
  have hub' : ((rhe (q * 10) : ℚ)) ≤ 1000 := by exact_mod_cast hub
  unfold round1
  constructor
  · positivity
  · rw [div_le_iff (by norm_num : (0:ℚ) < 10)]
    linarith

/-- Claim C5: `_minmax` over a column whose entries are all present and equal
returns zero at every entry, and over an empty or all-missing column returns
the column unchanged (hence all-missing); being a total function, it never
raises. -/
theorem minmax_const_and_missing (l : List (Option ℚ)) :
    ((∃ v, ∀ o ∈ l, o = some v) → _minmax l = l.map (fun _ => some 0)) ∧
    ((∀ o ∈ l, o = none) → _minmax l = l) := by
  constructor
  · rintro ⟨v, hv⟩
    rcases hpv : presentVals l with _ | ⟨hd, t⟩
    · have hnil : l = [] := by
        cases l with
        | nil => rfl
        | cons o t2 =>
          have ho := hv o (List.mem_cons_self o t2)
          rw [ho] at hpv
          simp [presentVals] at hpv
      rw [hnil]
      rfl
    · have hvv : ∀ x ∈ presentVals l, x = v := by
        intro x hx
        rcases List.mem_filterMap.mp hx with ⟨o, ho, hoe⟩
        have := hv o ho
        rw [this] at hoe
        simp at hoe
        exact hoe.symm
      have hh : hd = v := hvv hd (by rw [hpv]; exact List.mem_cons_self hd t)
      have hts : ∀ x ∈ t, x = v := fun x hx => hvv x (by rw [hpv]; exact List.mem_cons_of_mem hd hx)
      have hfmin : t.foldl min hd = v := by rw [hh]; exact foldl_min_const hts
      have hfmax : t.foldl max hd = v := by rw [hh]; exact foldl_max_const hts
      have hmm : _minmax l =
          (if t.foldl max hd = t.foldl min hd then l.map (fun o => o.map (fun x => x * 0))
           else l.map (fun o => o.map (fun x =>
             (x - t.foldl min hd) / (t.foldl max hd - t.foldl min hd)))) := by
        unfold _minmax
        rw [hpv]
      rw [hmm, if_pos (by rw [hfmin, hfmax])]
      apply List.map_congr_left
      intro o ho
      rw [hv o ho]
      simp
  · intro hall
    rcases hpv : presentVals l with _ | ⟨hd, t⟩
    · unfold _minmax
      rw [hpv]
    · exfalso
      have : hd ∈ presentVals l := by rw [hpv]; exact List.mem_cons_self hd t
      rcases List.mem_filterMap.mp this with ⟨o, ho, hoe⟩
      rw [hall o ho] at hoe
      cases hoe

theorem minmax_const_and_missing_witness :
    (∃ v : ℚ, ∀ o ∈ [some (7:ℚ), some 7], o = some v) ∧
    _minmax [some (7:ℚ), some 7] = [some 0, some 0] ∧
    (∀ o ∈ ([none, none] : List (Option ℚ)), o = none) ∧
    _minmax ([none, none] : List (Option ℚ)) = [none, none] :=
  ⟨⟨7, by simp⟩,
   (minmax_const_and_missing [some 7, some 7]).1 ⟨7, by simp⟩,
   by simp,
   (minmax_const_and_missing [none, none]).2 (by simp)⟩

/-- Claim C6: every computed impact-score entry is either missing or a value in
the closed interval `[0, 100]`, for arbitrary (any rational) column inputs. -/
theorem impact_score_range (n : ℕ) (pov minor : Option (List (Option ℚ))) (i : ℕ) :
    (_compute_impact_score n pov minor).get? i = none ∨
    (_compute_impact_score n pov minor).get? i = some none ∨
    ∃ v, (_compute_impact_score n pov minor).get? i = some (some v) ∧ 0 ≤ v ∧ v ≤ 100 := by
  unfold _compute_impact_score
  simp only [List.get?_map]
  rcases hz : (List.zipWith oAdd ((_minmax (synthCol n pov)).map (oScale 0.55))
      ((_minmax (synthCol n minor)).map (oScale 0.45))).get? i with _ | o
  · left
    rfl
  · cases o with
    | none =>
      right; left
      rfl
    | some v0 =>
      right; right
      refine ⟨round1 (v0 * 100), rfl, ?_⟩
      rw [List.get?_zipWith'] at hz
      rcases ha : ((_minmax (synthCol n pov)).map (oScale 0.55)).get? i with _ | a
      · rw [ha] at hz
        cases hz
      · rw [ha] at hz
        rcases hb : ((_minmax (synthCol n minor)).map (oScale 0.45)).get? i with _ | b
        · rw [hb] at hz
          cases hz
        · rw [hb] at hz
          simp at hz
          rw [List.get?_map] at ha hb
          rcases ha2 : (_minmax (synthCol n pov)).get? i with _ | a0
          · rw [ha2] at ha
            cases ha
          · rw [ha2] at ha
            rcases hb2 : (_minmax (synthCol n minor)).get? i with _ | b0
            · rw [hb2] at hb
              cases hb
            · rw [hb2] at hb
              simp at ha hb
              rw [← ha, ← hb] at hz
              cases a0 with
              | none => simp [oScale, oAdd] at hz
              | some x =>
                cases b0 with
                | none => simp [oScale, oAdd] at hz
                | some y =>
                  simp [oScale, oAdd] at hz
                  obtain ⟨hx1, hx2⟩ := minmax_entry_bounds ha2
                  obtain ⟨hy1, hy2⟩ := minmax_entry_bounds hb2
                  have hv0 : v0 = 0.55 * x + 0.45 * y := hz.symm
                  have h0 : 0 ≤ v0 * 100 := by rw [hv0]; nlinarith
                  have h1 : v0 * 100 ≤ 100 := by rw [hv0]; nlinarith
                  exact round1_bounds h0 h1

/-- Claim C1: for every reconciled county table (columns of equal length `n`,
either possibly absent), the score computation yields at each county index the
spec formula `round(100 * (0.55 * minmax(poverty) + 0.45 * minmax(minority)), 1)`
with `minmax` taken over the counties with a non-missing value, a wholly absent
column being synthesized as entirely missing first (so its term, and hence the
score, is missing). -/
theorem impact_score_formula (n : ℕ) (pov minor : Option (List (Option ℚ)))
    (hp : ∀ lp, pov = some lp → lp.length = n) (hm : ∀ lm, minor = some lm → lm.length = n)
    (i : ℕ) (hi : i < n) :
    (_compute_impact_score n pov minor).get? i =
      some (specScoreAt (synthCol n pov) (synthCol n minor) i) := by
  have hplen : (synthCol n pov).length = n := by
    cases pov with
    | none => simp [synthCol]
    | some lp => simp [synthCol, hp lp rfl]
  have hmlen : (synthCol n minor).length = n := by
    cases minor with
    | none => simp [synthCol]
    | some lm => simp [synthCol, hm lm rfl]
  unfold _compute_impact_score
  simp only [List.get?_map, List.get?_zipWith']
  rw [minmax_get?_eq _ i (by rw [hplen]; exact hi),
    minmax_get?_eq _ i (by rw [hmlen]; exact hi)]
  unfold specScoreAt
  rcases hA : minmaxSpecAt (synthCol n pov) i with _ | a <;>
    rcases hB : minmaxSpecAt (synthCol n minor) i with _ | b <;>
    simp [oScale, oAdd]
  ring_nf

theorem impact_score_formula_witness :
    (∀ lp, (some [some (20:ℚ), some 40] : Option (List (Option ℚ))) = some lp → lp.length = 2) ∧
    (∀ lm, (some [some (10:ℚ), none] : Option (List (Option ℚ))) = some lm → lm.length = 2) ∧
    (_compute_impact_score 2 (some [some 20, some 40]) (some [some 10, none])).get? 0 =
      some (specScoreAt (synthCol 2 (some [some 20, some 40]))
        (synthCol 2 (some [some 10, none])) 0) :=
  ⟨by intro lp h; cases h; rfl,
   by intro lm h; cases h; rfl,
   impact_score_formula 2 _ _ (by intro lp h; cases h; rfl) (by intro lm h; cases h; rfl)
     0 (by norm_num)⟩

/- ===================== theorems: C7 ===================== -/

theorem isPrefixOf_trans : ∀ (a b c : List Char),
    a.isPrefixOf b = true → b.isPrefixOf c = true → a.isPrefixOf c = true := by
  intro a
  induction a with
  | nil =>
    intro b c _ _
    simp [List.isPrefixOf]
  | cons x a ih =>
    intro b c hab hbc
    cases b with
    | nil => simp [List.isPrefixOf] at hab
    | cons y b =>
      cases c with
      | nil => simp [List.isPrefixOf] at hbc
      | cons z c =>
        simp only [List.isPrefixOf, Bool.and_eq_true, beq_iff_eq] at hab hbc ⊢
        exact ⟨hab.1.trans hbc.1, ih b c hab.2 hbc.2⟩

theorem containsSeq_mono {p1 p2 : List Char} (hp : p1.isPrefixOf p2 = true) :
    ∀ {s}, containsSeq p2 s = true → containsSeq p1 s = true := by
  intro s
  induction s with
  | nil =>
    intro h
    rw [containsSeq] at h ⊢
    have hp2 : p2 = [] := by
      cases p2 with
      | nil => rfl
      | cons a t => simp at h
    rw [hp2] at hp
    cases p1 with
    | nil => rfl
    | cons x t => simp [List.isPrefixOf] at hp
  | cons c t ih =>
    intro h
    rw [containsSeq, Bool.or_eq_true] at h ⊢
    rcases h with h | h
    · exact Or.inl (isPrefixOf_trans p1 p2 (c :: t) hp h)
    · exact Or.inr (ih h)

/-- Claim C7: every site is put into exactly one of the four buckets; the
additional-infrastructure test runs first and takes precedence, status
`existing` and `denied` select their buckets, everything else (including
blank or unknown status) falls back to `proposed`; and an identifier
containing `INV123` forces the additional-infrastructure bucket regardless of
the status text. -/
theorem site_classification (siteId layerRaw : Option String) :
    (isInv siteId (normLayer layerRaw) = true →
      classifySite siteId layerRaw = SiteBucket.inventory) ∧
    (isInv siteId (normLayer layerRaw) = false →
      pyLower (pyStrip (normLayer layerRaw)) = "existing" →
      classifySite siteId layerRaw = SiteBucket.existing) ∧
    (isInv siteId (normLayer layerRaw) = false →
      pyLower (pyStrip (normLayer layerRaw)) = "denied" →
      classifySite siteId layerRaw = SiteBucket.denied) ∧
    (isInv siteId (normLayer layerRaw) = false →
      pyLower (pyStrip (normLayer layerRaw)) ≠ "existing" →
      pyLower (pyStrip (normLayer layerRaw)) ≠ "denied" →
      classifySite siteId layerRaw = SiteBucket.proposed) ∧
    (pyContains "INV123" (_safe_text siteId) = true →
      classifySite siteId layerRaw = SiteBucket.inventory) := by
  refine ⟨?_, ?_, ?_, ?_, ?_⟩
  · intro h
    simp [classifySite, h]
  · intro h he
    simp [classifySite, h, he]
  · intro h he
    have hex : pyLower (pyStrip (normLayer layerRaw)) ≠ "existing" := by
      rw [he]
      decide
    simp [classifySite, h, hex, he]
  · intro h hex hde
    simp [classifySite, h, hex, hde]
  · intro h
    have hinv : pyContains "INV" (_safe_text siteId) = true :=
      containsSeq_mono (by decide) h
    have : isInv siteId (normLayer layerRaw) = true := by
      rw [isInv, hinv]
      rfl
    simp [classifySite, this]

theorem site_classification_witness :
    (isInv (some "X-INV123") (normLayer (some "Existing")) = true ∧
      classifySite (some "X-INV123") (some "Existing") = SiteBucket.inventory) ∧
    (isInv (some "S1") (normLayer (some " Existing ")) = false ∧
      pyLower (pyStrip (normLayer (some " Existing "))) = "existing" ∧
      classifySite (some "S1") (some " Existing ") = SiteBucket.existing) ∧
    (isInv (some "S2") (normLayer (some "Denied")) = false ∧
      classifySite (some "S2") (some "Denied") = SiteBucket.denied) ∧
    (isInv (some "S3") (normLayer none) = false ∧
      classifySite (some "S3") none = SiteBucket.proposed) ∧
    (pyContains "INV123" (_safe_text (some "X-INV123")) = true ∧
      classifySite (some "X-INV123") (some "denied") = SiteBucket.inventory) :=
  ⟨⟨by decide, (site_classification (some "X-INV123") (some "Existing")).1 (by decide)⟩,
   ⟨by decide, by decide,
     (site_classification (some "S1") (some " Existing ")).2.1 (by decide) (by decide)⟩,
   ⟨by decide, (site_classification (some "S2") (some "Denied")).2.2.1 (by decide) (by decide)⟩,
   ⟨by decide, (site_classification (some "S3") none).2.2.2.1 (by decide) (by decide) (by decide)⟩,
   ⟨by decide, (site_classification (some "X-INV123") (some "denied")).2.2.2.2 (by decide)⟩⟩

/- ===================== theorems: C10 ===================== -/

theorem optBlock_mem {b : Bool} {nm x : String} : x ∈ optBlock b nm ↔ b = true ∧ x = nm := by
  cases b <;> simp [optBlock]

theorem optBlock_length (b : Bool) (nm : String) :
    (optBlock b nm).length = if b then 1 else 0 := by
  cases b <;> rfl

theorem addGeo_isSome_iff (col : List (Option ℚ)) :
    (_add_geojson_choropleth col).isSome = true ↔ presentVals col ≠ [] := by
  rcases h : presentVals col with _ | ⟨hd, t⟩ <;> simp [_add_geojson_choropleth, h]

/-- Claim C10: `_add_geojson_choropleth` returns an absent result (no map
layer, no legend) on a column with no non-missing numeric value; in
`build_illinois_map` the number of choropleth layers always equals the number
of legend entries, and each metric's layer (and its paired legend entry) is
present exactly when the metric column exists and holds at least one
non-missing numeric value. -/
theorem choropleth_layers_legends (c : CountyCols) :
    (∀ col, presentVals col = [] → _add_geojson_choropleth col = none) ∧
    (buildCountyLayers c).1.length = (buildCountyLayers c).2.length ∧
    ("Community Impact Score (0–100)" ∈ (buildCountyLayers c).1 ↔
      presentVals (_compute_impact_score c.n c.pov c.minor) ≠ []) ∧
    ("Community Impact Score (higher = more vulnerable)" ∈ (buildCountyLayers c).2 ↔
      presentVals (_compute_impact_score c.n c.pov c.minor) ≠ []) ∧
    ("County Poverty Rate (%)" ∈ (buildCountyLayers c).1 ↔
      presentVals (synthCol c.n c.pov) ≠ []) ∧
    ("County Poverty Rate (%)" ∈ (buildCountyLayers c).2 ↔
      presentVals (synthCol c.n c.pov) ≠ []) ∧
    ("County Minority Population (%)" ∈ (buildCountyLayers c).1 ↔
      presentVals (synthCol c.n c.minor) ≠ []) ∧
    ("Air Quality Hotspots (AQI 90th %ile)" ∈ (buildCountyLayers c).1 ↔
      (∃ col, c.aqiP90 = some col ∧ presentVals col ≠ [])) ∧
    ("90th Percentile AQI (higher = worse air)" ∈ (buildCountyLayers c).2 ↔
      (∃ col, c.aqiP90 = some col ∧ presentVals col ≠ [])) ∧
    ("Ozone Hotspots (Days per Year)" ∈ (buildCountyLayers c).1 ↔
      (∃ col, c.ozone = some col ∧ presentVals col ≠ [])) ∧
    ("PM2.5 Hotspots (Days per Year)" ∈ (buildCountyLayers c).1 ↔
      (∃ col, c.pm25 = some col ∧ presentVals col ≠ [])) := by
  obtain ⟨n, pov, minor, aqi, oz, pm⟩ := c
  refine ⟨fun col h => by simp [_add_geojson_choropleth, h], ?_, ?_, ?_, ?_, ?_, ?_, ?_, ?_, ?_, ?_⟩
  · simp only [buildCountyLayers, List.length_append, optBlock_length]
  · simp [buildCountyLayers, List.mem_append, optBlock_mem, addGeo_isSome_iff]
  · simp [buildCountyLayers, List.mem_append, optBlock_mem, addGeo_isSome_iff]
  · simp [buildCountyLayers, List.mem_append, optBlock_mem, addGeo_isSome_iff]
  · simp [buildCountyLayers, List.mem_append, optBlock_mem, addGeo_isSome_iff]
  · simp [buildCountyLayers, List.mem_append, optBlock_mem, addGeo_isSome_iff]
  · rcases haq : aqi with _ | col <;>
      simp [buildCountyLayers, List.mem_append, optBlock_mem, addGeo_isSome_iff, haq]
  · rcases haq : aqi with _ | col <;>
      simp [buildCountyLayers, List.mem_append, optBlock_mem, addGeo_isSome_iff, haq]
  · rcases hoz : oz with _ | col <;>
      simp [buildCountyLayers, List.mem_append, optBlock_mem, addGeo_isSome_iff, hoz]
  · rcases hpm : pm with _ | col <;>
      simp [buildCountyLayers, List.mem_append, optBlock_mem, addGeo_isSome_iff, hpm]

theorem choropleth_layers_legends_witness :
    presentVals [none] = [] ∧ _add_geojson_choropleth [none] = none :=
  ⟨rfl, (choropleth_layers_legends ⟨1, none, none, none, none, none⟩).1 [none] rfl⟩

/- ===================== theorems: C8 helpers ===================== -/

theorem sublist_count_le {l1 l2 : List String} (h : List.Sublist l1 l2) (x : String) :
    List.count x l1 ≤ List.count x l2 := by
  induction h with
  | slnil => exact le_refl _
  | cons a h ih =>
    simp only [List.count_cons]
    split <;> omega
  | cons₂ a h ih =>
    simp only [List.count_cons]
    split <;> omega

theorem uniqueGo_clean :
    ∀ (l : List String) (i : ℕ) (seen : List (String × ℕ)),
      (∀ s ∈ l, pyStrip s = s ∧ s ≠ "" ∧ pyLower s ≠ "nan") →
      l.Nodup →
      (∀ s ∈ l, lookupSeen seen s = none) →
      uniqueGo i seen (l.map some) = l := by
  intro l
  induction l with
  | nil => intro i seen _ _ _; rfl
  | cons h t ih =>
    intro i seen hcl hnd hlk
    obtain ⟨hstrip, hne, hnan⟩ := hcl h (List.mem_cons_self h t)
    have hpn : processName i (some h) = h := by
      simp [processName, hstrip, hne, hnan]
    have hlkh : lookupSeen seen h = none := hlk h (List.mem_cons_self h t)
    simp only [List.map_cons, uniqueGo, hlkh, hpn]
    have hnotmem : h ∉ t := (List.nodup_cons.mp hnd).1
    congr 1
    apply ih (i + 1) ((h, 1) :: seen)
    · intro s hs
      exact hcl s (List.mem_cons_of_mem h hs)
    · exact (List.nodup_cons.mp hnd).2
    · intro s hs
      rw [lookupSeen_cons]
      have hsh : ¬ (h = s) := fun he => hnotmem (he ▸ hs)
      rw [if_neg hsh]
      exact hlk s (List.mem_cons_of_mem h hs)

theorem ensureUniqueCols_clean {l : List String} (h : CleanCols l) : ensureUniqueCols l = l :=
  uniqueGo_clean l 0 [] h.2 h.1 (fun _ _ => rfl)

theorem cleanCols_sublist {l l' : List String} (hs : List.Sublist l' l) (h : CleanCols l) :
    CleanCols l' :=
  ⟨h.1.sublist hs, fun s hm => h.2 s (hs.subset hm)⟩

theorem filterMap_if_sublist {α β : Type} (f : α → β) (P : α → Prop) [DecidablePred P] :
    ∀ l : List α,
      List.Sublist (l.filterMap (fun a => if P a then some (f a) else none)) (l.map f) := by
  intro l
  induction l with
  | nil => simp
  | cons a t ih =>
    by_cases h : P a
    · simp only [List.filterMap_cons, List.map_cons, if_pos h]
      exact ih.cons₂ (f a)
    · simp only [List.filterMap_cons, List.map_cons, if_neg h]
      exact ih.cons (f a)

theorem leadStage_ok_sublist {r : Except String (List (Option String))} {addCols : List String}
    (h : leadStage r = Except.ok addCols) : List.Sublist addCols leadTargetCols := by
  rcases r with e | rawCols
  · simp [leadStage] at h
  · simp only [leadStage] at h
    by_cases hg : "Geography ID" ∈ _make_unique_columns rawCols
    · rw [if_pos hg] at h
      injection h with h
      rw [← h]
      exact filterMap_if_sublist (fun p => p.2)
        (fun p => p.1 ∈ _make_unique_columns rawCols) leadRenamePairs
    · rw [if_neg hg] at h
      cases h

theorem xlsbStage_ok {b : Bool} {r : Except String (List (List (Option String)))}
    {addCols : List String} (h : xlsbStage b r = Except.ok addCols) :
    addCols = ["Elec_Consumption_MWh_perCapita"] := by
  rcases r with e | rows
  · simp [xlsbStage] at h
    split at h
    · cases h
    · cases h
  · simp only [xlsbStage] at h
    by_cases hb : b = false
    · rw [if_pos hb] at h
      cases h
    · rw [if_neg hb] at h
      by_cases h6 : rows.length < 6
      · rw [if_pos h6] at h
        cases h
      · rw [if_neg h6] at h
        rcases h1 : _find_col (dropEmptyCols (_make_unique_columns ((rows.get? 4).getD []))
            (rows.drop 5)) "state_abbr" with _ | c1
        · simp only [h1] at h
          cases h
        · simp only [h1] at h
          rcases h2 : _find_col (dropEmptyCols (_make_unique_columns ((rows.get? 4).getD []))
              (rows.drop 5)) "county_id" with _ | c2
          · simp only [h2] at h
            cases h
          · simp only [h2] at h
            rcases h3 : _find_col (dropEmptyCols (_make_unique_columns ((rows.get? 4).getD []))
                (rows.drop 5)) "consumption (MWh/capita)" with _ | c3
            · simp only [h3] at h
              cases h
            · simp only [h3] at h
              injection h with h
              exact h.symm

theorem pipeline_sublist {geoCols statsCols A B C : List String}
    (hA : List.Sublist A aqiAddCols) (hB : List.Sublist B leadTargetCols)
    (hC : List.Sublist C ["Elec_Consumption_MWh_perCapita"]) :
    List.Sublist (geoCols ++ statsCols.erase "GEOID" ++ ["NAME_clean"] ++ A ++ B ++ C)
      (pipelineAllCols geoCols statsCols) := by
  unfold pipelineAllCols
  exact (((((List.Sublist.refl _).append (List.Sublist.refl _)).append
    (List.Sublist.refl _)).append hA).append hB).append hC

theorem count_pipeline_le_one {geoCols statsCols : List String}
    (hclean : CleanCols (pipelineAllCols geoCols statsCols)) (x : String) :
    List.count x geoCols + List.count x (statsCols.erase "GEOID") +
      List.count x ["NAME_clean"] + List.count x aqiAddCols +
      List.count x leadTargetCols + List.count x ["Elec_Consumption_MWh_perCapita"] ≤ 1 := by
  have h := List.nodup_iff_count_le_one.mp hclean.1 x
  simp only [pipelineAllCols, List.count_append] at h
  omega

theorem absent_of_segment {geoCols statsCols A B C : List String} {x : String}
    (hclean : CleanCols (pipelineAllCols geoCols statsCols))
    (hA : List.Sublist A aqiAddCols) (hB : List.Sublist B leadTargetCols)
    (hC : List.Sublist C ["Elec_Consumption_MWh_perCapita"])
    (hseg : (1 ≤ List.count x aqiAddCols ∧ A = []) ∨
            (1 ≤ List.count x leadTargetCols ∧ B = []) ∨
            (1 ≤ List.count x ["Elec_Consumption_MWh_perCapita"] ∧ C = [])) :
    x ∉ geoCols ++ statsCols.erase "GEOID" ++ ["NAME_clean"] ++ A ++ B ++ C := by
  intro hmem
  have hc := count_pipeline_le_one hclean x
  have hpos : 0 < List.count x
      (geoCols ++ statsCols.erase "GEOID" ++ ["NAME_clean"] ++ A ++ B ++ C) :=
    List.count_pos_iff.mpr hmem
  simp only [List.count_append] at hpos
  have hA' := sublist_count_le hA x
  have hB' := sublist_count_le hB x
  have hC' := sublist_count_le hC x
  rcases hseg with ⟨h1, h2⟩ | ⟨h1, h2⟩ | ⟨h1, h2⟩ <;> subst h2 <;>
    simp only [List.count_nil] at hpos <;> omega

theorem not_mem_of_count_eq_zero {x : String} {l : List String}
    (h : List.count x l = 0) : x ∉ l := by
  intro hm
  have := List.count_pos_iff.mpr hm
  omega

theorem aqi_absent {geoCols statsCols addL : List String}
    (hclean : CleanCols (pipelineAllCols geoCols statsCols))
    (hBsub : List.Sublist addL leadTargetCols) {x : String} (hx : x ∈ aqiAddCols) :
    x ∉ geoCols ∧ x ∉ statsCols.erase "GEOID" ∧ x ≠ "NAME_clean" ∧ x ∉ addL ∧
      x ∉ (["Elec_Consumption_MWh_perCapita"] : List String) := by
  have hc := count_pipeline_le_one hclean x
  have h1 : 0 < List.count x aqiAddCols := List.count_pos_iff.mpr hx
  have hB := sublist_count_le hBsub x
  refine ⟨not_mem_of_count_eq_zero (by omega), not_mem_of_count_eq_zero (by omega), ?_,
    not_mem_of_count_eq_zero (by omega), not_mem_of_count_eq_zero (by omega)⟩
  intro he
  have h2 : 0 < List.count x ["NAME_clean"] := by
    rw [he]
    decide
  omega

theorem lead_absent {geoCols statsCols : List String}
    (hclean : CleanCols (pipelineAllCols geoCols statsCols)) {x : String}
    (hx : x ∈ leadTargetCols) :
    x ∉ geoCols ∧ x ∉ statsCols.erase "GEOID" ∧ x ≠ "NAME_clean" ∧ x ∉ aqiAddCols ∧
      x ∉ (["Elec_Consumption_MWh_perCapita"] : List String) := by
  have hc := count_pipeline_le_one hclean x
  have h1 : 0 < List.count x leadTargetCols := List.count_pos_iff.mpr hx
  refine ⟨not_mem_of_count_eq_zero (by omega), not_mem_of_count_eq_zero (by omega), ?_,
    not_mem_of_count_eq_zero (by omega), not_mem_of_count_eq_zero (by omega)⟩
  intro he
  have h2 : 0 < List.count x ["NAME_clean"] := by
    rw [he]
    decide
  omega

theorem elec_absent {geoCols statsCols addL : List String}
    (hclean : CleanCols (pipelineAllCols geoCols statsCols))
    (hBsub : List.Sublist addL leadTargetCols) {x : String}
    (hx : x ∈ (["Elec_Consumption_MWh_perCapita"] : List String)) :
    x ∉ geoCols ∧ x ∉ statsCols.erase "GEOID" ∧ x ≠ "NAME_clean" ∧ x ∉ aqiAddCols ∧
      x ∉ addL := by
  have hc := count_pipeline_le_one hclean x
  have h1 : 0 < List.count x ["Elec_Consumption_MWh_perCapita"] := List.count_pos_iff.mpr hx
  have hB := sublist_count_le hBsub x
  refine ⟨not_mem_of_count_eq_zero (by omega), not_mem_of_count_eq_zero (by omega), ?_,
    not_mem_of_count_eq_zero (by omega), not_mem_of_count_eq_zero (by omega)⟩
  intro he
  have h2 : 0 < List.count x ["NAME_clean"] := by
    rw [he]
    decide
  omega

theorem mainModel_ok (env : PipelineEnv) (sites : SitesTable) (geoCols statsCols : List String)
    (hsites : env.sitesFile = some sites) (hlat : sites.hasLat = true)
    (hlon : sites.hasLon = true) (hgeo : env.geoFile = some geoCols)
    (hstats : env.statsFile = some statsCols) (hg1 : "GEOID" ∈ geoCols)
    (hg2 : "GEOID" ∈ statsCols) (hclean : CleanCols (pipelineAllCols geoCols statsCols)) :
    ∃ r, mainModel env = Except.ok r ∧
      (∀ e, aqiStage env.aqiRead = Except.error e →
        aqiWarn e ∈ r.warnings ∧ ∀ col ∈ aqiAddCols, col ∉ r.columns) ∧
      (∀ e, leadStage env.leadRead = Except.error e →
        leadWarn e ∈ r.warnings ∧ ∀ col ∈ leadTargetCols, col ∉ r.columns) ∧
      (∀ e, xlsbStage env.pyxlsbAvailable env.xlsbRead = Except.error e →
        xlsbWarn e ∈ r.warnings ∧ "Elec_Consumption_MWh_perCapita" ∉ r.columns) := by
  have hbase : List.Sublist (geoCols ++ statsCols.erase "GEOID")
      (pipelineAllCols geoCols statsCols) := by
    unfold pipelineAllCols
    exact (List.sublist_append_left _ _).trans ((List.sublist_append_left _ _).trans
      ((List.sublist_append_left _ _).trans (List.sublist_append_left _ _)))
  have hEbase : ensureUniqueCols (geoCols ++ statsCols.erase "GEOID") =
      geoCols ++ statsCols.erase "GEOID" :=
    ensureUniqueCols_clean (cleanCols_sublist hbase hclean)
  have hXsub : List.Sublist
      (geoCols ++ statsCols.erase "GEOID" ++ ["NAME_clean"] ++ aqiAddCols ++ leadTargetCols)
      (pipelineAllCols geoCols statsCols) := by
    unfold pipelineAllCols
    exact List.sublist_append_left _ _
  have hXAsub : List.Sublist
      (geoCols ++ statsCols.erase "GEOID" ++ ["NAME_clean"] ++ aqiAddCols)
      (pipelineAllCols geoCols statsCols) := by
    unfold pipelineAllCols
    exact (List.sublist_append_left _ _).trans (List.sublist_append_left _ _)
  have hXonly : List.Sublist (geoCols ++ statsCols.erase "GEOID" ++ ["NAME_clean"])
      (pipelineAllCols geoCols statsCols) :=
    (List.sublist_append_left _ _).trans hXAsub
  have hmain0 : ∀ cols warns, (if sites.hasLat && sites.hasLon
        then Except.ok (⟨cols, warns⟩ : MainResult)
        else Except.error "KeyError: lat, lon") = Except.ok ⟨cols, warns⟩ := by
    intro cols warns
    rw [hlat, hlon]
    rfl
  rcases ha : aqiStage env.aqiRead with ea | va <;>
    rcases hl : leadStage env.leadRead with el | addL <;>
    rcases hx : xlsbStage env.pyxlsbAvailable env.xlsbRead with ex | addX
  -- case aqi error, lead error, xlsb error
  ·
    have hmaineq : mainModel env = Except.ok ⟨geoCols ++ statsCols.erase "GEOID" ++ ["NAME_clean"], [aqiWarn ea, leadWarn el, xlsbWarn ex]⟩ := by
      unfold mainModel
      rw [hsites, hgeo, hstats]
      simp only [readCsvModel, readGeoModel, pandasReadCsvModel]
      rw [if_pos ⟨hg1, hg2⟩]
      simp only [ha, hl, hx, hEbase]
      simp [hlat, hlon]
    refine ⟨⟨geoCols ++ statsCols.erase "GEOID" ++ ["NAME_clean"], [aqiWarn ea, leadWarn el, xlsbWarn ex]⟩, hmaineq, ?_, ?_, ?_⟩
    · intro e he
      injection he with he
      subst he
      refine ⟨by simp, ?_⟩
      intro col hcol
      obtain ⟨n1, n2, n3, n4, n5⟩ := aqi_absent hclean (List.nil_sublist leadTargetCols) hcol
      have n5x : col ≠ "Elec_Consumption_MWh_perCapita" := by simpa using n5
      simp [n1, n2, n3, n4, n5x]
    · intro e he
      injection he with he
      subst he
      refine ⟨by simp, ?_⟩
      intro col hcol
      obtain ⟨n1, n2, n3, n4, n5⟩ := lead_absent hclean hcol
      have n5x : col ≠ "Elec_Consumption_MWh_perCapita" := by simpa using n5
      simp [n1, n2, n3, n4, n5x]
    · intro e he
      injection he with he
      subst he
      refine ⟨by simp, ?_⟩
      obtain ⟨n1, n2, n3, n4, n5⟩ := elec_absent hclean (List.nil_sublist leadTargetCols)
        (List.mem_singleton.mpr rfl)
      simp [n1, n2, n3, n4, n5]
  -- case aqi error, lead error, xlsb ok
  ·
    have haX := xlsbStage_ok hx
    subst haX
    have hE3 : ensureUniqueCols (geoCols ++ statsCols.erase "GEOID" ++ ["NAME_clean"] ++ ["Elec_Consumption_MWh_perCapita"]) = geoCols ++ statsCols.erase "GEOID" ++ ["NAME_clean"] ++ ["Elec_Consumption_MWh_perCapita"] := by
      apply ensureUniqueCols_clean
      apply cleanCols_sublist ?_ hclean
      unfold pipelineAllCols
      exact ((List.sublist_append_left (geoCols ++ statsCols.erase "GEOID" ++ ["NAME_clean"]) aqiAddCols).trans (List.sublist_append_left _ leadTargetCols)).append (List.Sublist.refl ["Elec_Consumption_MWh_perCapita"])
    have hmaineq : mainModel env = Except.ok ⟨geoCols ++ statsCols.erase "GEOID" ++ ["NAME_clean"] ++ ["Elec_Consumption_MWh_perCapita"], [aqiWarn ea, leadWarn el]⟩ := by
      unfold mainModel
      rw [hsites, hgeo, hstats]
      simp only [readCsvModel, readGeoModel, pandasReadCsvModel]
      rw [if_pos ⟨hg1, hg2⟩]
      simp only [ha, hl, hx, hEbase, hE3]
      simp [hlat, hlon]
    refine ⟨⟨geoCols ++ statsCols.erase "GEOID" ++ ["NAME_clean"] ++ ["Elec_Consumption_MWh_perCapita"], [aqiWarn ea, leadWarn el]⟩, hmaineq, ?_, ?_, ?_⟩
    · intro e he
      injection he with he
      subst he
      refine ⟨by simp, ?_⟩
      intro col hcol
      obtain ⟨n1, n2, n3, n4, n5⟩ := aqi_absent hclean (List.nil_sublist leadTargetCols) hcol
      have n5x : col ≠ "Elec_Consumption_MWh_perCapita" := by simpa using n5
      simp [n1, n2, n3, n4, n5x]
    · intro e he
      injection he with he
      subst he
      refine ⟨by simp, ?_⟩
      intro col hcol
      obtain ⟨n1, n2, n3, n4, n5⟩ := lead_absent hclean hcol
      have n5x : col ≠ "Elec_Consumption_MWh_perCapita" := by simpa using n5
      simp [n1, n2, n3, n4, n5x]
    · intro e he
      cases he
  -- case aqi error, lead ok, xlsb error
  ·
    have hBsub := leadStage_ok_sublist hl
    have hE2 : ensureUniqueCols (geoCols ++ statsCols.erase "GEOID" ++ ["NAME_clean"] ++ addL) = geoCols ++ statsCols.erase "GEOID" ++ ["NAME_clean"] ++ addL := by
      apply ensureUniqueCols_clean
      apply cleanCols_sublist ?_ hclean
      unfold pipelineAllCols
      exact ((List.sublist_append_left (geoCols ++ statsCols.erase "GEOID" ++ ["NAME_clean"]) aqiAddCols).append hBsub).trans (List.sublist_append_left _ _)
    have hmaineq : mainModel env = Except.ok ⟨geoCols ++ statsCols.erase "GEOID" ++ ["NAME_clean"] ++ addL, [aqiWarn ea, xlsbWarn ex]⟩ := by
      unfold mainModel
      rw [hsites, hgeo, hstats]
      simp only [readCsvModel, readGeoModel, pandasReadCsvModel]
      rw [if_pos ⟨hg1, hg2⟩]
      simp only [ha, hl, hx, hEbase, hE2]
      simp [hlat, hlon]
    refine ⟨⟨geoCols ++ statsCols.erase "GEOID" ++ ["NAME_clean"] ++ addL, [aqiWarn ea, xlsbWarn ex]⟩, hmaineq, ?_, ?_, ?_⟩
    · intro e he
      injection he with he
      subst he
      refine ⟨by simp, ?_⟩
      intro col hcol
      obtain ⟨n1, n2, n3, n4, n5⟩ := aqi_absent hclean hBsub hcol
      have n5x : col ≠ "Elec_Consumption_MWh_perCapita" := by simpa using n5
      simp [n1, n2, n3, n4, n5x]
    · intro e he
      cases he
    · intro e he
      injection he with he
      subst he
      refine ⟨by simp, ?_⟩
      obtain ⟨n1, n2, n3, n4, n5⟩ := elec_absent hclean hBsub
        (List.mem_singleton.mpr rfl)
      simp [n1, n2, n3, n4, n5]
  -- case aqi error, lead ok, xlsb ok
  ·
    have haX := xlsbStage_ok hx
    subst haX
    have hBsub := leadStage_ok_sublist hl
    have hE2 : ensureUniqueCols (geoCols ++ statsCols.erase "GEOID" ++ ["NAME_clean"] ++ addL) = geoCols ++ statsCols.erase "GEOID" ++ ["NAME_clean"] ++ addL := by
      apply ensureUniqueCols_clean
      apply cleanCols_sublist ?_ hclean
      unfold pipelineAllCols
      exact ((List.sublist_append_left (geoCols ++ statsCols.erase "GEOID" ++ ["NAME_clean"]) aqiAddCols).append hBsub).trans (List.sublist_append_left _ _)
    have hE3 : ensureUniqueCols (geoCols ++ statsCols.erase "GEOID" ++ ["NAME_clean"] ++ addL ++ ["Elec_Consumption_MWh_perCapita"]) = geoCols ++ statsCols.erase "GEOID" ++ ["NAME_clean"] ++ addL ++ ["Elec_Consumption_MWh_perCapita"] := by
      apply ensureUniqueCols_clean
      apply cleanCols_sublist ?_ hclean
      unfold pipelineAllCols
      exact ((List.sublist_append_left (geoCols ++ statsCols.erase "GEOID" ++ ["NAME_clean"]) aqiAddCols).append hBsub).append (List.Sublist.refl ["Elec_Consumption_MWh_perCapita"])
    have hmaineq : mainModel env = Except.ok ⟨geoCols ++ statsCols.erase "GEOID" ++ ["NAME_clean"] ++ addL ++ ["Elec_Consumption_MWh_perCapita"], [aqiWarn ea]⟩ := by
      unfold mainModel
      rw [hsites, hgeo, hstats]
      simp only [readCsvModel, readGeoModel, pandasReadCsvModel]
      rw [if_pos ⟨hg1, hg2⟩]
      simp only [ha, hl, hx, hEbase, hE2, hE3]
      simp [hlat, hlon]
    refine ⟨⟨geoCols ++ statsCols.erase "GEOID" ++ ["NAME_clean"] ++ addL ++ ["Elec_Consumption_MWh_perCapita"], [aqiWarn ea]⟩, hmaineq, ?_, ?_, ?_⟩
    · intro e he
      injection he with he
      subst he
      refine ⟨by simp, ?_⟩
      intro col hcol
      obtain ⟨n1, n2, n3, n4, n5⟩ := aqi_absent hclean hBsub hcol
      have n5x : col ≠ "Elec_Consumption_MWh_perCapita" := by simpa using n5
      simp [n1, n2, n3, n4, n5x]
    · intro e he
      cases he
    · intro e he
      cases he
  -- case aqi ok, lead error, xlsb error
  ·
    have hE1 : ensureUniqueCols (geoCols ++ statsCols.erase "GEOID" ++ ["NAME_clean"] ++ aqiAddCols) = geoCols ++ statsCols.erase "GEOID" ++ ["NAME_clean"] ++ aqiAddCols :=
      ensureUniqueCols_clean (cleanCols_sublist hXAsub hclean)
    have hmaineq : mainModel env = Except.ok ⟨geoCols ++ statsCols.erase "GEOID" ++ ["NAME_clean"] ++ aqiAddCols, [leadWarn el, xlsbWarn ex]⟩ := by
      unfold mainModel
      rw [hsites, hgeo, hstats]
      simp only [readCsvModel, readGeoModel, pandasReadCsvModel]
      rw [if_pos ⟨hg1, hg2⟩]
      simp only [ha, hl, hx, hEbase, hE1]
      simp [hlat, hlon]
    refine ⟨⟨geoCols ++ statsCols.erase "GEOID" ++ ["NAME_clean"] ++ aqiAddCols, [leadWarn el, xlsbWarn ex]⟩, hmaineq, ?_, ?_, ?_⟩
    · intro e he
      cases he
    · intro e he
      injection he with he
      subst he
      refine ⟨by simp, ?_⟩
      intro col hcol
      obtain ⟨n1, n2, n3, n4, n5⟩ := lead_absent hclean hcol
      have n5x : col ≠ "Elec_Consumption_MWh_perCapita" := by simpa using n5
      simp [n1, n2, n3, n4, n5x]
    · intro e he
      injection he with he
      subst he
      refine ⟨by simp, ?_⟩
      obtain ⟨n1, n2, n3, n4, n5⟩ := elec_absent hclean (List.nil_sublist leadTargetCols)
        (List.mem_singleton.mpr rfl)
      simp [n1, n2, n3, n4, n5]
  -- case aqi ok, lead error, xlsb ok
  ·
    have haX := xlsbStage_ok hx
    subst haX
    have hE1 : ensureUniqueCols (geoCols ++ statsCols.erase "GEOID" ++ ["NAME_clean"] ++ aqiAddCols) = geoCols ++ statsCols.erase "GEOID" ++ ["NAME_clean"] ++ aqiAddCols :=
      ensureUniqueCols_clean (cleanCols_sublist hXAsub hclean)
    have hE3 : ensureUniqueCols (geoCols ++ statsCols.erase "GEOID" ++ ["NAME_clean"] ++ aqiAddCols ++ ["Elec_Consumption_MWh_perCapita"]) = geoCols ++ statsCols.erase "GEOID" ++ ["NAME_clean"] ++ aqiAddCols ++ ["Elec_Consumption_MWh_perCapita"] := by
      apply ensureUniqueCols_clean
      apply cleanCols_sublist ?_ hclean
      unfold pipelineAllCols
      exact (List.sublist_append_left (geoCols ++ statsCols.erase "GEOID" ++ ["NAME_clean"] ++ aqiAddCols) leadTargetCols).append (List.Sublist.refl ["Elec_Consumption_MWh_perCapita"])
    have hmaineq : mainModel env = Except.ok ⟨geoCols ++ statsCols.erase "GEOID" ++ ["NAME_clean"] ++ aqiAddCols ++ ["Elec_Consumption_MWh_perCapita"], [leadWarn el]⟩ := by
      unfold mainModel
      rw [hsites, hgeo, hstats]
      simp only [readCsvModel, readGeoModel, pandasReadCsvModel]
      rw [if_pos ⟨hg1, hg2⟩]
      simp only [ha, hl, hx, hEbase, hE1, hE3]
      simp [hlat, hlon]
    refine ⟨⟨geoCols ++ statsCols.erase "GEOID" ++ ["NAME_clean"] ++ aqiAddCols ++ ["Elec_Consumption_MWh_perCapita"], [leadWarn el]⟩, hmaineq, ?_, ?_, ?_⟩
    · intro e he
      cases he
    · intro e he
      injection he with he
      subst he
      refine ⟨by simp, ?_⟩
      intro col hcol
      obtain ⟨n1, n2, n3, n4, n5⟩ := lead_absent hclean hcol
      have n5x : col ≠ "Elec_Consumption_MWh_perCapita" := by simpa using n5
      simp [n1, n2, n3, n4, n5x]
    · intro e he
      cases he
  -- case aqi ok, lead ok, xlsb error
  ·
    have hBsub := leadStage_ok_sublist hl
    have hE1 : ensureUniqueCols (geoCols ++ statsCols.erase "GEOID" ++ ["NAME_clean"] ++ aqiAddCols) = geoCols ++ statsCols.erase "GEOID" ++ ["NAME_clean"] ++ aqiAddCols :=
      ensureUniqueCols_clean (cleanCols_sublist hXAsub hclean)
    have hE2 : ensureUniqueCols (geoCols ++ statsCols.erase "GEOID" ++ ["NAME_clean"] ++ aqiAddCols ++ addL) = geoCols ++ statsCols.erase "GEOID" ++ ["NAME_clean"] ++ aqiAddCols ++ addL := by
      apply ensureUniqueCols_clean
      apply cleanCols_sublist ?_ hclean
      unfold pipelineAllCols
      exact ((List.Sublist.refl (geoCols ++ statsCols.erase "GEOID" ++ ["NAME_clean"] ++ aqiAddCols)).append hBsub).trans (List.sublist_append_left _ _)
    have hmaineq : mainModel env = Except.ok ⟨geoCols ++ statsCols.erase "GEOID" ++ ["NAME_clean"] ++ aqiAddCols ++ addL, [xlsbWarn ex]⟩ := by
      unfold mainModel
      rw [hsites, hgeo, hstats]
      simp only [readCsvModel, readGeoModel, pandasReadCsvModel]
      rw [if_pos ⟨hg1, hg2⟩]
      simp only [ha, hl, hx, hEbase, hE1, hE2]
      simp [hlat, hlon]
    refine ⟨⟨geoCols ++ statsCols.erase "GEOID" ++ ["NAME_clean"] ++ aqiAddCols ++ addL, [xlsbWarn ex]⟩, hmaineq, ?_, ?_, ?_⟩
    · intro e he
      cases he
    · intro e he
      cases he
    · intro e he
      injection he with he
      subst he
      refine ⟨by simp, ?_⟩
      obtain ⟨n1, n2, n3, n4, n5⟩ := elec_absent hclean hBsub
        (List.mem_singleton.mpr rfl)
      simp [n1, n2, n3, n4, n5]
  -- case aqi ok, lead ok, xlsb ok
  ·
    have haX := xlsbStage_ok hx
    subst haX
    have hBsub := leadStage_ok_sublist hl
    have hE1 : ensureUniqueCols (geoCols ++ statsCols.erase "GEOID" ++ ["NAME_clean"] ++ aqiAddCols) = geoCols ++ statsCols.erase "GEOID" ++ ["NAME_clean"] ++ aqiAddCols :=
      ensureUniqueCols_clean (cleanCols_sublist hXAsub hclean)
    have hE2 : ensureUniqueCols (geoCols ++ statsCols.erase "GEOID" ++ ["NAME_clean"] ++ aqiAddCols ++ addL) = geoCols ++ statsCols.erase "GEOID" ++ ["NAME_clean"] ++ aqiAddCols ++ addL := by
      apply ensureUniqueCols_clean
      apply cleanCols_sublist ?_ hclean
      unfold pipelineAllCols
      exact ((List.Sublist.refl (geoCols ++ statsCols.erase "GEOID" ++ ["NAME_clean"] ++ aqiAddCols)).append hBsub).trans (List.sublist_append_left _ _)
    have hE3 : ensureUniqueCols (geoCols ++ statsCols.erase "GEOID" ++ ["NAME_clean"] ++ aqiAddCols ++ addL ++ ["Elec_Consumption_MWh_perCapita"]) = geoCols ++ statsCols.erase "GEOID" ++ ["NAME_clean"] ++ aqiAddCols ++ addL ++ ["Elec_Consumption_MWh_perCapita"] := by
      apply ensureUniqueCols_clean
      apply cleanCols_sublist ?_ hclean
      unfold pipelineAllCols
      exact ((List.Sublist.refl (geoCols ++ statsCols.erase "GEOID" ++ ["NAME_clean"] ++ aqiAddCols)).append hBsub).append (List.Sublist.refl ["Elec_Consumption_MWh_perCapita"])
    have hmaineq : mainModel env = Except.ok ⟨geoCols ++ statsCols.erase "GEOID" ++ ["NAME_clean"] ++ aqiAddCols ++ addL ++ ["Elec_Consumption_MWh_perCapita"], ([] : List String)⟩ := by
      unfold mainModel
      rw [hsites, hgeo, hstats]
      simp only [readCsvModel, readGeoModel, pandasReadCsvModel]
      rw [if_pos ⟨hg1, hg2⟩]
      simp only [ha, hl, hx, hEbase, hE1, hE2, hE3]
      simp [hlat, hlon]
    refine ⟨⟨geoCols ++ statsCols.erase "GEOID" ++ ["NAME_clean"] ++ aqiAddCols ++ addL ++ ["Elec_Consumption_MWh_perCapita"], ([] : List String)⟩, hmaineq, ?_, ?_, ?_⟩
    · intro e he
      cases he
    · intro e he
      cases he
    · intro e he
      cases he

/-- Claim C8: absence of either mandatory base source (sites CSV, county
geometry, county statistics CSV) is fatal — the pipeline aborts with a
missing-file error naming the path — while failure of any optional
enrichment source (air quality, LEAD energy burden, XLSB electricity
consumption; whether a missing file, missing column, malformed data or a
missing `pyxlsb` dependency, all surfaced through that stage's error) is
caught: the run completes, a warning naming the source is recorded, and that
source's columns are absent from the county table. -/
theorem pipeline_failure_semantics (env : PipelineEnv) :
    (env.sitesFile = none →
      mainModel env = Except.error ("Missing file: " ++ ilSitesPath)) ∧
    (env.sitesFile ≠ none → env.geoFile = none →
      mainModel env = Except.error ("Geographic file not found at: " ++ ilBoundariesPath)) ∧
    (env.sitesFile ≠ none → env.geoFile ≠ none → env.statsFile = none →
      mainModel env = Except.error ("[Errno 2] No such file or directory: " ++ ilStatsPath)) ∧
    (∀ sites geoCols statsCols,
      env.sitesFile = some sites → sites.hasLat = true → sites.hasLon = true →
      env.geoFile = some geoCols → env.statsFile = some statsCols →
      "GEOID" ∈ geoCols → "GEOID" ∈ statsCols →
      CleanCols (pipelineAllCols geoCols statsCols) →
      ∃ r, mainModel env = Except.ok r ∧
        (∀ e, aqiStage env.aqiRead = Except.error e →
          aqiWarn e ∈ r.warnings ∧ ∀ col ∈ aqiAddCols, col ∉ r.columns) ∧
        (∀ e, leadStage env.leadRead = Except.error e →
          leadWarn e ∈ r.warnings ∧ ∀ col ∈ leadTargetCols, col ∉ r.columns) ∧
        (∀ e, xlsbStage env.pyxlsbAvailable env.xlsbRead = Except.error e →
          xlsbWarn e ∈ r.warnings ∧ "Elec_Consumption_MWh_perCapita" ∉ r.columns)) := by
  refine ⟨?_, ?_, ?_, ?_⟩
  · intro h
    unfold mainModel
    rw [h]
    rfl
  · intro h1 h2
    rcases hs : env.sitesFile with _ | sites
    · exact absurd hs h1
    · unfold mainModel
      rw [hs, h2]
      rfl
  · intro h1 h2 h3
    rcases hs : env.sitesFile with _ | sites
    · exact absurd hs h1
    · rcases hg : env.geoFile with _ | geoCols
      · exact absurd hg h2
      · unfold mainModel
        rw [hs, hg, h3]
        rfl
  · intro sites geoCols statsCols hs hlat hlon hg hst hg1 hg2 hclean
    exact mainModel_ok env sites geoCols statsCols hs hlat hlon hg hst hg1 hg2 hclean

theorem pipeline_failure_semantics_witness :
    (some (⟨true, true⟩ : SitesTable) = some (⟨true, true⟩ : SitesTable)) ∧
    ("GEOID" ∈ ["GEOID", "NAME", "geometry"]) ∧
    ("GEOID" ∈ ["GEOID", "Poverty_Rate_Percent", "Pct_Minority"]) ∧
    CleanCols (pipelineAllCols ["GEOID", "NAME", "geometry"]
      ["GEOID", "Poverty_Rate_Percent", "Pct_Minority"]) ∧
    ∃ r, mainModel
        ⟨some ⟨true, true⟩, some ["GEOID", "NAME", "geometry"],
          some ["GEOID", "Poverty_Rate_Percent", "Pct_Minority"],
          Except.error "no file", Except.error "no file", false, Except.error "no file"⟩ =
        Except.ok r ∧
      (∀ e, aqiStage (Except.error "no file" : Except String (List AqiRow)) = Except.error e →
        aqiWarn e ∈ r.warnings ∧ ∀ col ∈ aqiAddCols, col ∉ r.columns) ∧
      (∀ e, leadStage (Except.error "no file" : Except String (List (Option String))) =
          Except.error e →
        leadWarn e ∈ r.warnings ∧ ∀ col ∈ leadTargetCols, col ∉ r.columns) ∧
      (∀ e, xlsbStage false (Except.error "no file") = Except.error e →
        xlsbWarn e ∈ r.warnings ∧ "Elec_Consumption_MWh_perCapita" ∉ r.columns) :=
  ⟨rfl, by decide, by decide, ⟨by decide, by decide⟩,
    (pipeline_failure_semantics
      ⟨some ⟨true, true⟩, some ["GEOID", "NAME", "geometry"],
        some ["GEOID", "Poverty_Rate_Percent", "Pct_Minority"],
        Except.error "no file", Except.error "no file", false,
        Except.error "no file"⟩).2.2.2
      ⟨true, true⟩ ["GEOID", "NAME", "geometry"]
      ["GEOID", "Poverty_Rate_Percent", "Pct_Minority"]
      rfl rfl rfl rfl rfl (by decide) (by decide) ⟨by decide, by decide⟩⟩

/- ===================== theorems: C9 ===================== -/

/-- Claim C9 counterexample: the code filters on `Year == int(max(Year))`,
truncating the maximum.  With a single Illinois row whose numeric year is
2024.5, the spec's description keeps that (maximum-year) row, but the code
computes `latest_year = 2024` and keeps no row at all. -/
theorem aqi_latest_year_truncation :
    aqiYearFilter [⟨"Illinois", "COOK", some (4049/2)⟩] = Except.ok (2024, []) ∧
    specKeptRows [⟨"Illinois", "COOK", some (4049/2)⟩] =
      [⟨"Illinois", "COOK", some (4049/2)⟩] ∧
    ([] : List AqiRow) ≠ [⟨"Illinois", "COOK", some (4049/2)⟩] := by
  have hb : (pyLower (pyStrip "Illinois") == "illinois") = true := by decide
  have hfil : aqiFilterIllinois [(⟨"Illinois", "COOK", some (4049/2)⟩ : AqiRow)] =
      [⟨"Illinois", "COOK", some (4049/2)⟩] := by
    simp [aqiFilterIllinois, List.filter_cons, hb]
  have htr : pyIntTrunc ((4049 : ℚ)/2) = 2024 := by
    unfold pyIntTrunc
    rw [if_pos (by norm_num : (0:ℚ) ≤ 4049/2)]
    norm_num
  refine ⟨?_, ?_, by simp⟩
  · have hne : decide ((some ((4049:ℚ)/2) : Option ℚ) = some (((2024:ℤ) : ℚ))) = false := by
      apply decide_eq_false
      intro h
      rw [Option.some.injEq] at h
      norm_num at h
    simp only [aqiYearFilter, hfil, List.filterMap_cons, List.filterMap_nil, List.foldl, htr]
    simp [List.filter_cons, hne]
    norm_num
  · have heq : decide ((some ((4049:ℚ)/2) : Option ℚ) = some ((4049:ℚ)/2)) = true :=
      decide_eq_true rfl
    simp only [specKeptRows, hfil, List.filterMap_cons, List.filterMap_nil, List.foldl]
    simp [List.filter_cons, heq]

/-- Claim C9 (amended): before the name-based join the air-quality rows are
filtered to the target state, then to the rows whose numeric `Year` equals
`int(max Year)` — the maximum numeric year truncated to an integer, which
coincides with the maximum whenever it is integral; if the state-filtered
rows contain no numeric year at all the step fails, and (last conjunct) the
failure is recoverable: with the base sources present the run still
completes, with a warning recorded and no AQI columns on the county table. -/
theorem aqi_year_filter_spec (rows : List AqiRow) :
    ((aqiFilterIllinois rows).filterMap (fun r => r.year) = [] →
      aqiYearFilter rows = Except.error "cannot convert float NaN to integer") ∧
    (∀ h t, (aqiFilterIllinois rows).filterMap (fun r => r.year) = h :: t →
      aqiYearFilter rows = Except.ok (pyIntTrunc (t.foldl max h),
        (aqiFilterIllinois rows).filter
          (fun r => decide (r.year = some ((pyIntTrunc (t.foldl max h) : ℤ) : ℚ))))) ∧
    (∀ h t, (aqiFilterIllinois rows).filterMap (fun r => r.year) = h :: t →
      ((pyIntTrunc (t.foldl max h) : ℤ) : ℚ) = t.foldl max h →
      aqiYearFilter rows = Except.ok (pyIntTrunc (t.foldl max h), specKeptRows rows)) ∧
    (∀ env : PipelineEnv, ∀ sites geoCols statsCols,
      env.aqiRead = Except.ok rows →
      (aqiFilterIllinois rows).filterMap (fun r => r.year) = [] →
      env.sitesFile = some sites → sites.hasLat = true → sites.hasLon = true →
      env.geoFile = some geoCols → env.statsFile = some statsCols →
      "GEOID" ∈ geoCols → "GEOID" ∈ statsCols →
      CleanCols (pipelineAllCols geoCols statsCols) →
      ∃ r, mainModel env = Except.ok r ∧
        aqiWarn "cannot convert float NaN to integer" ∈ r.warnings ∧
        ∀ col ∈ aqiAddCols, col ∉ r.columns) := by
  refine ⟨?_, ?_, ?_, ?_⟩
  · intro hfm
    simp only [aqiYearFilter, hfm]
  · intro h t hfm
    simp only [aqiYearFilter, hfm]
  · intro h t hfm hint
    have h2 : aqiYearFilter rows = Except.ok (pyIntTrunc (t.foldl max h),
        (aqiFilterIllinois rows).filter
          (fun r => decide (r.year = some ((pyIntTrunc (t.foldl max h) : ℤ) : ℚ)))) := by
      simp only [aqiYearFilter, hfm]
    rw [h2]
    have hpred : (fun r : AqiRow => decide (r.year = some ((pyIntTrunc (t.foldl max h) : ℤ) : ℚ)))
        = (fun r : AqiRow => decide (r.year = some (t.foldl max h))) := by
      funext r
      rw [hint]
    rw [hpred]
    simp only [specKeptRows, hfm]
  · intro env sites geoCols statsCols haqi hfm hs hlat hlon hg hst hg1 hg2 hclean
    obtain ⟨r, hok, haqiW, _, _⟩ :=
      mainModel_ok env sites geoCols statsCols hs hlat hlon hg hst hg1 hg2 hclean
    have hstage : aqiStage env.aqiRead = Except.error "cannot convert float NaN to integer" := by
      rw [haqi]
      show aqiYearFilter rows = _
      simp only [aqiYearFilter, hfm]
    exact ⟨r, hok, haqiW "cannot convert float NaN to integer" hstage⟩

theorem aqi_year_filter_spec_witness :
    ((aqiFilterIllinois ([] : List AqiRow)).filterMap (fun r => r.year) = []) ∧
    aqiYearFilter ([] : List AqiRow) = Except.error "cannot convert float NaN to integer" ∧
    ((aqiFilterIllinois [(⟨"Illinois", "COOK", some 2024⟩ : AqiRow)]).filterMap
      (fun r => r.year) = [(2024 : ℚ)]) ∧
    (((pyIntTrunc (List.foldl max (2024 : ℚ) []) : ℤ) : ℚ) = List.foldl max (2024 : ℚ) []) ∧
    aqiYearFilter [(⟨"Illinois", "COOK", some 2024⟩ : AqiRow)] =
      Except.ok (pyIntTrunc (List.foldl max (2024 : ℚ) []),
        specKeptRows [(⟨"Illinois", "COOK", some 2024⟩ : AqiRow)]) := by
  have hb : (pyLower (pyStrip "Illinois") == "illinois") = true := by decide
  have hfm : (aqiFilterIllinois [(⟨"Illinois", "COOK", some 2024⟩ : AqiRow)]).filterMap
      (fun r => r.year) = [(2024 : ℚ)] := by
    simp [aqiFilterIllinois, List.filter_cons, hb, List.filterMap_cons]
  have hint : ((pyIntTrunc (List.foldl max (2024 : ℚ) []) : ℤ) : ℚ) =
      List.foldl max (2024 : ℚ) [] := by
    simp only [List.foldl]
    unfold pyIntTrunc
    rw [if_pos (by norm_num : (0:ℚ) ≤ 2024)]
    norm_num
  refine ⟨rfl, (aqi_year_filter_spec []).1 rfl, hfm, hint, ?_⟩
  exact (aqi_year_filter_spec [⟨"Illinois", "COOK", some 2024⟩]).2.2.1 2024 [] hfm hint
